import Mathlib

set_option maxHeartbeats 1000000

namespace SD

/-!
Verification development for the stellaris-dashboard save-parsing front end and
snapshot-to-history extraction engine.  Python sources are shallowly embedded:
dictionaries become structures with `Option` fields where the code uses `.get`,
database rows become entries of lists inside a `Store` record, and fallible code
paths (unguarded `[...]` subscripts, attribute access on `None`) return `Except`.
Numeric save values (powers, war exhaustion) are floats in the save files; the
embedded code only ever copies or order-compares them, so they are modelled as `Int`.
Calendar strings are modelled as already-converted day counts (`date_to_days` lives
in `models.py`, which is not part of the sources under study).
-/

/-! ### Lexer (`token_value_stream_re.py`)

`token_value_stream` scans the input with a cursor: it first skips the maximal
whitespace run (counting newlines for the line number), then tries the regexes
`BR_OPEN, BR_CLOSE, EQ, Q_STR, IDENTIFIER, FLOAT, INT` in that order at the
cursor, yielding the first match and advancing past it.  The embedding uses the
remaining suffix of the input as the cursor.  Anchored Python regex matches are
translated as follows:

* `Q_STR = "[^"]*"`: a quote, then everything up to the next quote, then that quote.
* `IDENTIFIER = [0-9_]*[a-zA-Z_]+[a-zA-Z0-9_]*` under greedy backtracking matches
  exactly the maximal run of word characters (`[a-zA-Z0-9_]`) at the cursor,
  provided that run contains at least one character in `[a-zA-Z_]`; otherwise it
  fails.  (The backtracking search peels digits/underscores off the front until an
  anchor character in `[a-zA-Z_]` is found; the remaining `[a-zA-Z0-9_]*` then
  swallows the rest of the run.)
* `FLOAT = -?[0-9]+\.[0-9]*` and `INT = -?[0-9]+` are matched structurally.
-/

def braceOpen : Char := Char.ofNat 123

def braceClose : Char := Char.ofNat 125

def quoteChar : Char := Char.ofNat 34

def tabChar : Char := Char.ofNat 9

def nlChar : Char := Char.ofNat 10

def spaceChar : Char := Char.ofNat 32

def isWsChar (c : Char) : Bool := c = tabChar || c = nlChar || c = spaceChar

def isWordChar (c : Char) : Bool := c.isAlpha || c.isDigit || c = '_'

def isIdentAnchor (c : Char) : Bool := c.isAlpha || c = '_'

def matchSingle (target : Char) : List Char → Option (List Char × List Char)
  | c :: rest => if c = target then some ([c], rest) else none
  | [] => none

/-- `Q_STR`: an opening quote, the maximal run of non-quote characters, and a
closing quote (whose existence is exactly `rem ≠ []`, since `dropWhile` stops at
the first quote character). -/
def matchQuoted : List Char → Option (List Char × List Char)
  | c :: rest =>
    if c = quoteChar then
      let body := rest.takeWhile (fun d => !(d = quoteChar))
      let rem := rest.dropWhile (fun d => !(d = quoteChar))
      if rem.isEmpty then none
      else some (quoteChar :: (body ++ [quoteChar]), rem.tail)
    else none
  | [] => none

def matchIdent (s : List Char) : Option (List Char × List Char) :=
  let run := s.takeWhile isWordChar
  if !run.isEmpty && run.any isIdentAnchor then some (run, s.dropWhile isWordChar) else none

def matchFloatBody (s : List Char) : Option (List Char × List Char) :=
  let d1 := s.takeWhile (fun c => c.isDigit)
  let rem := s.dropWhile (fun c => c.isDigit)
  if d1.isEmpty then none
  else if rem.head? = some '.' then
    some (d1 ++ '.' :: rem.tail.takeWhile (fun c => c.isDigit),
      rem.tail.dropWhile (fun c => c.isDigit))
  else none

def matchFloat : List Char → Option (List Char × List Char)
  | '-' :: rest => (matchFloatBody rest).map (fun p => ('-' :: p.1, p.2))
  | s => matchFloatBody s

def matchIntBody (s : List Char) : Option (List Char × List Char) :=
  let d1 := s.takeWhile (fun c => c.isDigit)
  if d1.isEmpty then none else some (d1, s.dropWhile (fun c => c.isDigit))

def matchInt : List Char → Option (List Char × List Char)
  | '-' :: rest => (matchIntBody rest).map (fun p => ('-' :: p.1, p.2))
  | s => matchIntBody s

/-- The `for regex in REG_EXES` loop: first matching class wins. -/
def tokenMatch (s : List Char) : Option (List Char × List Char) :=
  match matchSingle braceOpen s with
  | some r => some r
  | none =>
    match matchSingle braceClose s with
    | some r => some r
    | none =>
      match matchSingle '=' s with
      | some r => some r
      | none =>
        match matchQuoted s with
        | some r => some r
        | none =>
          match matchIdent s with
          | some r => some r
          | none =>
            match matchFloat s with
            | some r => some r
            | none => matchInt s

def newlineCount (l : List Char) : Nat := (l.filter (fun c => c = nlChar)).length

structure LexState where
  rest : List Char
  line : Nat
deriving DecidableEq

/-- One iteration of the `while start_index < N` loop body: skip whitespace
(counting newlines), then try the token classes; on a match, yield the token with
its line number and advance, otherwise advance only past the whitespace. -/
def lexStep (st : LexState) : LexState × Option (List Char × Nat) :=
  let ws := st.rest.takeWhile isWsChar
  let r1 := st.rest.dropWhile isWsChar
  let l1 := st.line + newlineCount ws
  match tokenMatch r1 with
  | some (tok, r2) => ({ rest := r2, line := l1 }, some (tok, l1))
  | none => ({ rest := r1, line := l1 }, none)

/-- The whole generator, run with explicit fuel.  `some toks` means the loop
terminated having yielded `toks`; `none` means the fuel ran out, i.e. the loop
was still running after `fuel` iterations. -/
def token_value_stream_run : Nat → LexState → Option (List (List Char × Nat))
  | 0, _ => none
  | fuel + 1, st =>
    if st.rest.isEmpty then some []
    else
      match lexStep st with
      | (st', out) =>
        match token_value_stream_run fuel st' with
        | none => none
        | some toks =>
          some (match out with
            | some t => t :: toks
            | none => toks)

/-- A lexer state where, after skipping whitespace, input remains but none of the
token regexes matches.  The Python loop then re-runs its body on an unchanged
cursor forever. -/
def lexStuck (st : LexState) : Prop :=
  st.rest.dropWhile isWsChar ≠ [] ∧ tokenMatch (st.rest.dropWhile isWsChar) = none

instance (st : LexState) : Decidable (lexStuck st) := by
  unfold lexStuck; infer_instance

/-- Inputs on which, at every reachable cursor position, whitespace skipping is
followed by a successful token match (or end of input). -/
def lexTotalInput (s : List Char) : Prop :=
  ∀ r ∈ s.tails, r.dropWhile isWsChar ≠ [] → (tokenMatch (r.dropWhile isWsChar)).isSome

instance (s : List Char) : Decidable (lexTotalInput s) := by
  unfold lexTotalInput; infer_instance

lemma dropWhile_sfx (p : Char → Bool) (l : List Char) : l.dropWhile p <:+ l :=
  ⟨l.takeWhile p, List.takeWhile_append_dropWhile p l⟩

lemma length_dropWhile_le (p : Char → Bool) (l : List Char) :
    (l.dropWhile p).length ≤ l.length := by
  induction l with
  | nil => simp
  | cons c cs ih =>
    by_cases h : p c
    · simp [List.dropWhile, h]; omega
    · simp [List.dropWhile, h]

lemma dropWhile_idem (p : Char → Bool) (l : List Char) :
    (l.dropWhile p).dropWhile p = l.dropWhile p := by
  induction l with
  | nil => simp
  | cons c cs ih =>
    by_cases h : p c
    · simpa [List.dropWhile, h] using ih
    · simp [List.dropWhile, h]

lemma takeWhile_ne_nil_length (p : Char → Bool) (l : List Char) (h : l.takeWhile p ≠ []) :
    (l.dropWhile p).length < l.length := by
  cases l with
  | nil => simp at h
  | cons c cs =>
    by_cases hc : p c
    · simp only [List.dropWhile, hc]
      exact Nat.lt_succ_of_le (length_dropWhile_le p cs)
    · simp [List.takeWhile, hc] at h

lemma matchSingle_consumes (t : Char) (s tok r : List Char)
    (h : matchSingle t s = some (tok, r)) : r.length < s.length := by
  cases s with
  | nil => simp [matchSingle] at h
  | cons c cs =>
    by_cases hc : c = t
    · simp [matchSingle, hc] at h
      simp [← h.2]
    · simp [matchSingle, hc] at h

lemma matchQuoted_consumes (s tok r : List Char)
    (h : matchQuoted s = some (tok, r)) : r.length < s.length := by
  cases s with
  | nil => simp [matchQuoted] at h
  | cons c cs =>
    by_cases hc : c = quoteChar
    · simp only [matchQuoted] at h
      rw [if_pos hc] at h
      by_cases he : (cs.dropWhile (fun d => !(d = quoteChar))).isEmpty
      · rw [if_pos he] at h
        simp at h
      · rw [if_neg he] at h
        simp only [Option.some.injEq, Prod.mk.injEq] at h
        have hlen : (cs.dropWhile (fun d => !(d = quoteChar))).length ≤ cs.length :=
          length_dropWhile_le _ cs
        have hne : cs.dropWhile (fun d => !(d = quoteChar)) ≠ [] := by
          simpa [List.isEmpty_iff] using he
        have htail : (cs.dropWhile (fun d => !(d = quoteChar))).tail.length <
            (cs.dropWhile (fun d => !(d = quoteChar))).length := by
          cases hl : cs.dropWhile (fun d => !(d = quoteChar)) with
          | nil => exact absurd hl hne
          | cons d r2 => simp
        rw [← h.2]
        simp only [List.length_cons]
        omega
    · simp only [matchQuoted] at h
      rw [if_neg hc] at h
      simp at h

lemma matchIdent_consumes (s tok r : List Char)
    (h : matchIdent s = some (tok, r)) : r.length < s.length := by
  simp only [matchIdent] at h
  by_cases hrun : (!(s.takeWhile isWordChar).isEmpty && (s.takeWhile isWordChar).any isIdentAnchor) = true
  · rw [if_pos hrun] at h
    simp only [Option.some.injEq, Prod.mk.injEq] at h
    have hne : s.takeWhile isWordChar ≠ [] := by
      intro hnil
      rw [hnil] at hrun
      simp at hrun
    rw [← h.2]
    exact takeWhile_ne_nil_length _ _ hne
  · rw [if_neg hrun] at h
    simp at h

lemma matchFloatBody_consumes (s tok r : List Char)
    (h : matchFloatBody s = some (tok, r)) : r.length < s.length := by
  simp only [matchFloatBody] at h
  by_cases hd1 : (s.takeWhile (fun c => c.isDigit)).isEmpty
  · rw [if_pos hd1] at h
    simp at h
  · rw [if_neg hd1] at h
    by_cases hdot : (s.dropWhile (fun c => c.isDigit)).head? = some '.'
    · rw [if_pos hdot] at h
      simp only [Option.some.injEq, Prod.mk.injEq] at h
      have h1 : (s.dropWhile (fun c => c.isDigit)).length < s.length := by
        apply takeWhile_ne_nil_length
        intro hnil
        rw [hnil] at hd1
        simp at hd1
      have h2 : ((s.dropWhile (fun c => c.isDigit)).tail.dropWhile (fun c => c.isDigit)).length ≤
          (s.dropWhile (fun c => c.isDigit)).tail.length :=
        length_dropWhile_le _ _
      have h3 : (s.dropWhile (fun c => c.isDigit)).tail.length ≤
          (s.dropWhile (fun c => c.isDigit)).length := by
        cases s.dropWhile (fun c => c.isDigit) with
        | nil => simp
        | cons a l => simp
      rw [← h.2]
      omega
    · rw [if_neg hdot] at h
      simp at h

lemma matchIntBody_consumes (s tok r : List Char)
    (h : matchIntBody s = some (tok, r)) : r.length < s.length := by
  simp only [matchIntBody] at h
  by_cases hd1 : (s.takeWhile (fun c => c.isDigit)).isEmpty
  · simp [hd1] at h
  · rw [if_neg (by simpa using hd1)] at h
    simp only [Option.some.injEq, Prod.mk.injEq] at h
    rw [← h.2]
    apply takeWhile_ne_nil_length
    intro hnil
    rw [hnil] at hd1
    simp at hd1

lemma matchFloat_consumes (s tok r : List Char)
    (h : matchFloat s = some (tok, r)) : r.length < s.length := by
  cases s with
  | nil =>
    simp only [matchFloat] at h
    exact matchFloatBody_consumes _ _ _ h
  | cons c cs =>
    by_cases hc : c = '-'
    · subst hc
      simp only [matchFloat, Option.map_eq_some'] at h
      obtain ⟨⟨t0, r0⟩, hm, heq⟩ := h
      have := matchFloatBody_consumes _ _ _ hm
      cases heq
      simp only [List.length_cons]
      omega
    · have hs : matchFloat (c :: cs) = matchFloatBody (c :: cs) := by
        unfold matchFloat
        split
        · rename_i heq
          rw [List.cons.injEq] at heq
          exact absurd heq.1 hc
        · rfl
      rw [hs] at h
      exact matchFloatBody_consumes _ _ _ h

lemma matchInt_consumes (s tok r : List Char)
    (h : matchInt s = some (tok, r)) : r.length < s.length := by
  cases s with
  | nil =>
    simp only [matchInt] at h
    exact matchIntBody_consumes _ _ _ h
  | cons c cs =>
    by_cases hc : c = '-'
    · subst hc
      simp only [matchInt, Option.map_eq_some'] at h
      obtain ⟨⟨t0, r0⟩, hm, heq⟩ := h
      have := matchIntBody_consumes _ _ _ hm
      cases heq
      simp only [List.length_cons]
      omega
    · have hs : matchInt (c :: cs) = matchIntBody (c :: cs) := by
        unfold matchInt
        split
        · rename_i heq
          rw [List.cons.injEq] at heq
          exact absurd heq.1 hc
        · rfl
      rw [hs] at h
      exact matchIntBody_consumes _ _ _ h

lemma tokenMatch_consumes (s tok r : List Char)
    (h : tokenMatch s = some (tok, r)) : r.length < s.length := by
  unfold tokenMatch at h
  rcases h1 : matchSingle braceOpen s with _ | ⟨t1, r1⟩
  all_goals rw [h1] at h
  · rcases h2 : matchSingle braceClose s with _ | ⟨t2, r2⟩
    all_goals rw [h2] at h
    · rcases h3 : matchSingle '=' s with _ | ⟨t3, r3⟩
      all_goals rw [h3] at h
      · rcases h4 : matchQuoted s with _ | ⟨t4, r4⟩
        all_goals rw [h4] at h
        · rcases h5 : matchIdent s with _ | ⟨t5, r5⟩
          all_goals rw [h5] at h
          · rcases h6 : matchFloat s with _ | ⟨t6, r6⟩
            all_goals rw [h6] at h
            · exact matchInt_consumes _ _ _ h
            · cases h; exact matchFloat_consumes _ _ _ h6
          · cases h; exact matchIdent_consumes _ _ _ h5
        · cases h; exact matchQuoted_consumes _ _ _ h4
      · cases h; exact matchSingle_consumes _ _ _ _ h3
    · cases h; exact matchSingle_consumes _ _ _ _ h2
  · cases h; exact matchSingle_consumes _ _ _ _ h1

lemma matchSingle_sfx (t : Char) (s tok r : List Char)
    (h : matchSingle t s = some (tok, r)) : r <:+ s := by
  cases s with
  | nil => simp [matchSingle] at h
  | cons c cs =>
    by_cases hc : c = t
    · simp [matchSingle, hc] at h
      rw [← h.2]
      exact ⟨[c], rfl⟩
    · simp [matchSingle, hc] at h

lemma tail_sfx (l : List Char) : l.tail <:+ l := by
  cases l with
  | nil => exact List.suffix_rfl
  | cons a l => exact ⟨[a], rfl⟩

lemma matchQuoted_sfx (s tok r : List Char)
    (h : matchQuoted s = some (tok, r)) : r <:+ s := by
  cases s with
  | nil => simp [matchQuoted] at h
  | cons c cs =>
    by_cases hc : c = quoteChar
    · simp only [matchQuoted] at h
      rw [if_pos hc] at h
      by_cases he : (cs.dropWhile (fun d => !(d = quoteChar))).isEmpty
      · rw [if_pos he] at h; simp at h
      · rw [if_neg he] at h
        simp only [Option.some.injEq, Prod.mk.injEq] at h
        rw [← h.2]
        exact ((tail_sfx _).trans (dropWhile_sfx _ cs)).trans ⟨[c], rfl⟩
    · simp only [matchQuoted] at h
      rw [if_neg hc] at h
      simp at h

lemma matchIdent_sfx (s tok r : List Char)
    (h : matchIdent s = some (tok, r)) : r <:+ s := by
  simp only [matchIdent] at h
  by_cases hrun : (!(s.takeWhile isWordChar).isEmpty && (s.takeWhile isWordChar).any isIdentAnchor) = true
  · rw [if_pos hrun] at h
    simp only [Option.some.injEq, Prod.mk.injEq] at h
    rw [← h.2]
    exact dropWhile_sfx _ s
  · rw [if_neg hrun] at h
    simp at h

lemma matchFloatBody_sfx (s tok r : List Char)
    (h : matchFloatBody s = some (tok, r)) : r <:+ s := by
  simp only [matchFloatBody] at h
  by_cases hd1 : (s.takeWhile (fun c => c.isDigit)).isEmpty
  · rw [if_pos hd1] at h; simp at h
  · rw [if_neg hd1] at h
    by_cases hdot : (s.dropWhile (fun c => c.isDigit)).head? = some '.'
    · rw [if_pos hdot] at h
      simp only [Option.some.injEq, Prod.mk.injEq] at h
      rw [← h.2]
      exact ((dropWhile_sfx _ _).trans (tail_sfx _)).trans (dropWhile_sfx _ s)
    · rw [if_neg hdot] at h; simp at h

lemma matchIntBody_sfx (s tok r : List Char)
    (h : matchIntBody s = some (tok, r)) : r <:+ s := by
  simp only [matchIntBody] at h
  by_cases hd1 : (s.takeWhile (fun c => c.isDigit)).isEmpty
  · rw [if_pos hd1] at h; simp at h
  · rw [if_neg (by simpa using hd1)] at h
    simp only [Option.some.injEq, Prod.mk.injEq] at h
    rw [← h.2]
    exact dropWhile_sfx _ s

lemma matchFloat_sfx (s tok r : List Char)
    (h : matchFloat s = some (tok, r)) : r <:+ s := by
  cases s with
  | nil =>
    simp only [matchFloat] at h
    exact matchFloatBody_sfx _ _ _ h
  | cons c cs =>
    by_cases hc : c = '-'
    · subst hc
      simp only [matchFloat, Option.map_eq_some'] at h
      obtain ⟨⟨t0, r0⟩, hm, heq⟩ := h
      cases heq
      exact (matchFloatBody_sfx _ _ _ hm).trans ⟨['-'], rfl⟩
    · have hs : matchFloat (c :: cs) = matchFloatBody (c :: cs) := by
        unfold matchFloat
        split
        · rename_i heq
          rw [List.cons.injEq] at heq
          exact absurd heq.1 hc
        · rfl
      rw [hs] at h
      exact matchFloatBody_sfx _ _ _ h

lemma matchInt_sfx (s tok r : List Char)
    (h : matchInt s = some (tok, r)) : r <:+ s := by
  cases s with
  | nil =>
    simp only [matchInt] at h
    exact matchIntBody_sfx _ _ _ h
  | cons c cs =>
    by_cases hc : c = '-'
    · subst hc
      simp only [matchInt, Option.map_eq_some'] at h
      obtain ⟨⟨t0, r0⟩, hm, heq⟩ := h
      cases heq
      exact (matchIntBody_sfx _ _ _ hm).trans ⟨['-'], rfl⟩
    · have hs : matchInt (c :: cs) = matchIntBody (c :: cs) := by
        unfold matchInt
        split
        · rename_i heq
          rw [List.cons.injEq] at heq
          exact absurd heq.1 hc
        · rfl
      rw [hs] at h
      exact matchIntBody_sfx _ _ _ h

lemma tokenMatch_sfx (s tok r : List Char) (h : tokenMatch s = some (tok, r)) : r <:+ s := by
  unfold tokenMatch at h
  rcases h1 : matchSingle braceOpen s with _ | ⟨t1, r1⟩
  all_goals rw [h1] at h
  · rcases h2 : matchSingle braceClose s with _ | ⟨t2, r2⟩
    all_goals rw [h2] at h
    · rcases h3 : matchSingle '=' s with _ | ⟨t3, r3⟩
      all_goals rw [h3] at h
      · rcases h4 : matchQuoted s with _ | ⟨t4, r4⟩
        all_goals rw [h4] at h
        · rcases h5 : matchIdent s with _ | ⟨t5, r5⟩
          all_goals rw [h5] at h
          · rcases h6 : matchFloat s with _ | ⟨t6, r6⟩
            all_goals rw [h6] at h
            · exact matchInt_sfx _ _ _ h
            · cases h; exact matchFloat_sfx _ _ _ h6
          · cases h; exact matchIdent_sfx _ _ _ h5
        · cases h; exact matchQuoted_sfx _ _ _ h4
      · cases h; exact matchSingle_sfx _ _ _ _ h3
    · cases h; exact matchSingle_sfx _ _ _ _ h2
  · cases h; exact matchSingle_sfx _ _ _ _ h1

/-- A stuck state makes no progress: the loop body maps it to an equally stuck state. -/
lemma lexStep_stuck (st : LexState) (h : lexStuck st) :
    (lexStep st).2 = none ∧ lexStuck (lexStep st).1 ∧ ¬ (lexStep st).1.rest.isEmpty := by
  obtain ⟨hne, hmatch⟩ := h
  have h1 : (lexStep st).1.rest = st.rest.dropWhile isWsChar := by
    simp only [lexStep, hmatch]
  have h2 : (lexStep st).2 = none := by
    simp only [lexStep, hmatch]
  refine ⟨h2, ?_, ?_⟩
  · unfold lexStuck
    rw [h1, dropWhile_idem]
    exact ⟨hne, hmatch⟩
  · rw [h1]
    simpa [List.isEmpty_iff] using hne

/-- A stuck lexer never terminates and never yields the rest of the token
sequence, regardless of the iteration budget. -/
lemma lexStuck_run_none (fuel : Nat) : ∀ st : LexState, lexStuck st →
    token_value_stream_run fuel st = none := by
  induction fuel with
  | zero => intro st _; rfl
  | succ n ih =>
    intro st h
    have hrest : ¬ st.rest.isEmpty = true := by
      have := h.1
      intro hemp
      rw [List.isEmpty_iff] at hemp
      rw [hemp] at this
      simp at this
    obtain ⟨hout, hstuck', _⟩ := lexStep_stuck st h
    simp only [token_value_stream_run, if_neg hrest]
    rw [ih _ hstuck']

lemma token_value_stream_run_mono (fuel : Nat) :
    ∀ fuel' st toks, fuel ≤ fuel' → token_value_stream_run fuel st = some toks →
      token_value_stream_run fuel' st = some toks := by
  induction fuel with
  | zero => intro fuel' st toks _ h; simp [token_value_stream_run] at h
  | succ n ih =>
    intro fuel' st toks hle h
    cases fuel' with
    | zero => omega
    | succ m =>
      by_cases hrest : st.rest.isEmpty
      · simpa [token_value_stream_run, hrest] using h
      · simp only [token_value_stream_run, if_neg hrest] at h ⊢
        rcases hrun : token_value_stream_run n (lexStep st).1 with _ | toks0
        · rw [hrun] at h; simp at h
        · rw [hrun] at h
          rw [ih m _ _ (by omega) hrun]
          exact h

/-- On inputs where every position matches, the loop terminates within
`length + 1` iterations (each productive iteration strictly shrinks the rest of
the input). -/
lemma lexTotal_run_terminates (s : List Char) (htotal : lexTotalInput s) :
    ∀ st : LexState, st.rest <:+ s →
      ∃ toks, token_value_stream_run (st.rest.length + 1) st = some toks := by
  suffices hmain : ∀ n : Nat, ∀ st : LexState, st.rest.length ≤ n → st.rest <:+ s →
      ∃ toks, token_value_stream_run (st.rest.length + 1) st = some toks by
    intro st hsfx
    exact hmain st.rest.length st (Nat.le_refl _) hsfx
  intro n
  induction n with
  | zero =>
    intro st hlen _
    have hnil : st.rest = [] := by
      cases hr : st.rest with
      | nil => rfl
      | cons a l => rw [hr] at hlen; simp at hlen
    refine ⟨[], ?_⟩
    simp [token_value_stream_run, hnil]
  | succ m ih =>
    intro st hlen hsfx
    by_cases hrest : st.rest.isEmpty
    · exact ⟨[], by simp [token_value_stream_run, hrest]⟩
    · have hlen1 : 1 ≤ st.rest.length := by
        cases hr : st.rest with
        | nil => rw [hr] at hrest; simp at hrest
        | cons a l => simp [hr]
      by_cases hr1 : st.rest.dropWhile isWsChar = []
      · have hm0 : tokenMatch (st.rest.dropWhile isWsChar) = none := by
          rw [hr1]; decide
        have hstep : (lexStep st).1.rest = [] := by
          simp only [lexStep, hm0]
          exact hr1
        have hout : (lexStep st).2 = none := by
          simp only [lexStep, hm0]
        refine ⟨[], ?_⟩
        simp only [token_value_stream_run, if_neg hrest]
        have hrun : token_value_stream_run st.rest.length (lexStep st).1 = some [] := by
          cases hn : st.rest.length with
          | zero => omega
          | succ k => simp [token_value_stream_run, hstep]
        rw [hrun, hout]
      · have hmatch := htotal st.rest ((List.mem_tails _ _).mpr hsfx) hr1
        rcases hm : tokenMatch (st.rest.dropWhile isWsChar) with _ | ⟨tok, r2⟩
        · rw [hm] at hmatch; simp at hmatch
        · have hless : r2.length < st.rest.length :=
            Nat.lt_of_lt_of_le (tokenMatch_consumes _ _ _ hm) (length_dropWhile_le _ _)
          have hr2sfx : r2 <:+ s :=
            ((tokenMatch_sfx _ _ _ hm).trans (dropWhile_sfx _ _)).trans hsfx
          have hstepdef : (lexStep st).1.rest = r2 := by
            simp only [lexStep, hm]
          obtain ⟨toks, hrun⟩ := ih (lexStep st).1 (by rw [hstepdef]; omega)
            (by rw [hstepdef]; exact hr2sfx)
          rw [hstepdef] at hrun
          have hrun' : token_value_stream_run st.rest.length (lexStep st).1 = some toks :=
            token_value_stream_run_mono (r2.length + 1) st.rest.length _ toks (by omega) hrun
          refine ⟨match (lexStep st).2 with | some t => t :: toks | none => toks, ?_⟩
          simp only [token_value_stream_run, if_neg hrest]
          rw [hrun']

/-- C9, counterexample.  The claim states that the lexer produces a finite token
sequence for every input string, failing with a fatal lex error at unmatched
positions.  In the code, an unmatched position (for example the single character
`(`) is re-scanned forever: the loop neither terminates nor raises, so there is
an input on which no iteration budget suffices. -/
theorem token_value_stream_counterexample :
    ¬ (∀ s : List Char, ∃ fuel toks,
        token_value_stream_run fuel { rest := s, line := 1 } = some toks) := by
  intro h
  obtain ⟨fuel, toks, hrun⟩ := h ['(']
  have hstuck : lexStuck { rest := ['('], line := 1 } := by decide
  rw [lexStuck_run_none fuel _ hstuck] at hrun
  exact Option.noConfusion hrun

/-- C9, amended.  On inputs where, after whitespace skipping, every reachable
position matches one of the token classes (braces, `=`, quoted string,
identifier, float, integer), the lexer terminates and produces a finite sequence
of `(token_text, line_number)` pairs; at a position where none of the classes
matches, the lexer yields no further output and never terminates — no lex error
is reported. -/
theorem token_value_stream_amended :
    (∀ s : List Char, lexTotalInput s →
      ∃ toks, token_value_stream_run (s.length + 1) { rest := s, line := 1 } = some toks)
    ∧ (∀ st : LexState, lexStuck st → ∀ fuel, token_value_stream_run fuel st = none) := by
  constructor
  · intro s htotal
    exact lexTotal_run_terminates s htotal { rest := s, line := 1 } List.suffix_rfl
  · intro st hstuck fuel
    exact lexStuck_run_none fuel st hstuck

/-- Witness for the amended C9 theorem at concrete inputs: the input `{a=1}`
lexes to completion, while the lexer diverges on the unmatched input `(`. -/
theorem token_value_stream_amended_witness :
    (∃ toks, token_value_stream_run 6
      { rest := [braceOpen, 'a', '=', '1', braceClose], line := 1 } = some toks)
    ∧ token_value_stream_run 3 { rest := ['('], line := 1 } = none := by
  constructor
  · exact token_value_stream_amended.1 [braceOpen, 'a', '=', '1', braceClose] (by decide)
  · exact token_value_stream_amended.2 { rest := ['('], line := 1 } (by decide) 3

/-! ### Extraction engine (`timeline.py`): persisted data model

Database rows become list entries inside a `Store` record.  Rows are identified
by their in-game ids (`country_id_in_game`, `system_id_in_game`, ...) or by list
index (wars); the code's `one_or_none`/`first` queries are modelled as first
match in list order — duplicate keys do not arise from the modelled operations.
-/

inductive HistoricalEventType where
  | government_reform
  | sent_rivalry
  | received_rivalry
  | closed_borders
  | received_closed_borders
  | defensive_pact
  | formed_federation
  | non_aggression_pact
  | first_contact
  | commercial_pact
  | discovered_new_system
  | war
  | peace
  | leader_died
  | leader_recruited
  | level_up
  | new_faction
  | faction_leader
  | researched_technology
  | research_leader
  | ruled_empire
  | capital_relocation
  | tradition
  | ascension_perk
  | edict
  | colonization
  | terraforming
  | habitat_ringworld_construction
  | governed_sector
  | expanded_to_system
  | gained_system
  | lost_system
  | army_combat
  | fleet_combat
deriving DecidableEq

/-- A `models.HistoricalEvent` row.  The persisted visibility column is
`event_is_known_to_player` — that is the keyword every constructor call in
`timeline.py` passes (e.g. lines 731–739), and a SQLAlchemy declarative
constructor only accepts mapped attribute names.  The update sites at
timeline.py:742, 1331 and 1750 instead assign the attribute name
`is_known_to_player`, which is a *different* Python attribute: those assignments
create a transient instance attribute and leave the persisted column unchanged.
The transient attribute is modelled as the separate field `is_known_to_player`.
(`models.py` itself is not under src/; the column set is modelled from the
constructor calls and from the spec's §3 description of interval facts.)
Countries, leaders, factions, systems and planets are referenced by in-game id,
wars by row index. -/
structure HistoricalEvent where
  event_type : HistoricalEventType
  country : Option Int := none
  target_country : Option Int := none
  leader : Option Int := none
  faction : Option Int := none
  system : Option Int := none
  planet : Option Int := none
  war : Option Nat := none
  description : Option String := none
  start_date_days : Int := 0
  end_date_days : Option Int := none
  event_is_known_to_player : Bool := false
  is_known_to_player : Option Bool := none
deriving DecidableEq

structure Country where
  country_id_in_game : Int
  is_player : Bool := false
  country_type : Option String := none
  country_name : String := "no name"
  first_player_contact_date : Option Int := none
deriving DecidableEq

/-- Modelled from the spec: `models.Country.has_met_player` (models.py is not
under src/).  §3: a Country "carries a `first_contact_day` (nullable, set once)
and a derived boolean 'has the player ever met this country' used to gate
visibility of events". -/
def has_met_player (c : Country) : Bool := c.first_player_contact_date.isSome

/-- Only the `models.Leader` fields read by `_get_current_ruler` are modelled;
leader extraction itself is outside the claims under study. -/
structure Leader where
  leader_id_in_game : Int
  country : Int
  is_active : Bool := true
deriving DecidableEq

/-- A `models.Government` interval row.  `ethics`/`civics` model the columns
`ethics_1..ethics_5` / `civic_1..civic_5`: the code stores
`dict(zip([...5 names...], sorted(<set>)))`, i.e. the first five elements of the
sorted duplicate-free list, and reads them back as a set (dropping `None`). -/
structure Government where
  country : Int
  start_date_days : Int
  end_date_days : Int
  gov_name : String
  gov_type : String
  authority : String
  personality : String
  ethics : List String
  civics : List String
deriving DecidableEq

inductive WarOutcome where
  | in_progress
  | status_quo
  | attacker_victory
  | defender_victory
  | unknown
deriving DecidableEq

/-- A `models.War` row.  The war-exhaustion fields are floats accumulated outside
`timeline.py` (models.py is not under src/); they are modelled from the spec
("accumulated war-exhaustion between sides", §4.3 step 11) as integer-valued
fields that the modelled operations initialise to 0 and only order-compare. -/
structure War where
  war_id_in_game : Int
  start_date_days : Int
  end_date_days : Int
  name : String
  outcome : WarOutcome
  attacker_war_exhaustion : Int := 0
  defender_war_exhaustion : Int := 0
deriving DecidableEq

/-- A `models.WarParticipant` row; `war` is the row index of the War. -/
structure WarParticipant where
  war : Nat
  country : Int
  is_attacker : Bool
  war_goal : Option String := none
deriving DecidableEq

structure StarSystem where
  system_id_in_game : Int
  name : Option String := none
  star_class : String := "Unknown"
  coordinate_x : Int := 0
  coordinate_y : Int := 0
deriving DecidableEq

/-- A `models.HyperLane` row; endpoints are the in-game ids of the two system rows. -/
structure HyperLane where
  system_one : Int
  system_two : Int
deriving DecidableEq

/-- A `models.GameState` snapshot row (keyed by day count). -/
structure GameState where
  date : Int
deriving DecidableEq

inductive Attitude where
  | is_player
  | named (s : String)
  | unknown
deriving DecidableEq

/-- A `models.CountryData` row (the per-snapshot metrics extracted by
`_extract_country_data` and `_extract_country_economy`). -/
structure CountryData where
  country : Int
  date : Int
  military_power : Int
  tech_power : Int
  fleet_size : Int
  empire_size : Int
  empire_cohesion : Int
  tech_count : Int
  exploration_progress : Int
  owned_planets : Int
  controlled_systems : Int
  victory_rank : Int
  victory_score : Int
  economy_power : Int
  has_research_agreement_with_player : Bool
  has_sensor_link_with_player : Bool
  attitude_towards_player : Attitude
  net_energy : Int
  net_minerals : Int
  net_alloys : Int
  net_consumer_goods : Int
  net_food : Int
  net_unity : Int
  net_influence : Int
  net_physics_research : Int
  net_society_research : Int
  net_engineering_research : Int
  has_rivalry_with_player : Bool
  has_defensive_pact_with_player : Bool
  has_federation_with_player : Bool
  has_non_aggression_pact_with_player : Bool
  has_closed_borders_with_player : Bool
  has_communications_with_player : Bool
  has_migration_treaty_with_player : Bool
  has_commercial_pact_with_player : Bool
  is_player_neighbor : Bool
deriving DecidableEq

/-- The persisted store for one game (`models.get_db_session(game_name)`).
`gameExists` models whether the `models.Game` row has been created. -/
structure Store where
  gameExists : Bool := false
  systems : List StarSystem := []
  hyperlanes : List HyperLane := []
  gameStates : List GameState := []
  countries : List Country := []
  countryData : List CountryData := []
  governments : List Government := []
  events : List HistoricalEvent := []
  leaders : List Leader := []
  wars : List War := []
  warParticipants : List WarParticipant := []
deriving DecidableEq

/-! ### Extraction engine: parsed-gamestate input

Dictionaries of the parsed save tree become structures.  A field the code reads
with `.get(key, default)` becomes a field with that default; a field the code
subscripts (`d[key]`) or calls methods on unguardedly is `Option`-valued and its
absence is an error in the consuming function.  `Option X` wrappers around
sub-dictionaries model the code's `isinstance(…, dict)` guards (`none` = absent
or not a dict).  Fields the parser can deliver either as a scalar or as a list
(and that the code re-wraps with `if not isinstance(x, list): x = [x]`) are
modelled as already-wrapped lists.  Date strings are given as day counts. -/

structure PlayerEntry where
  country : Int
deriving DecidableEq

structure Relation where
  country : Option Int := none
  is_rival : Option String := none
  closed_borders : Option String := none
  defensive_pact : Option String := none
  alliance : Option String := none
  non_aggression_pledge : Option String := none
  communications : Option String := none
  commercial_pact : Option String := none
  migration_access : Option String := none
  borders : Option String := none
deriving DecidableEq

structure RelationsManager where
  relation : List (Option Relation) := []
deriving DecidableEq

structure EthosDict where
  ethic : List String := []
deriving DecidableEq

structure GovernmentDict where
  civics : List String := []
  authority : Option String := none
  gov_type : Option String := none
deriving DecidableEq

structure AttitudeEntry where
  country : Option Int := none
  attitude : Option String := none
deriving DecidableEq

structure AiDict where
  attitude : List (Option AttitudeEntry) := []
deriving DecidableEq

structure TechStatusDict where
  technology : List String := []
deriving DecidableEq

structure BudgetValues where
  energy : Int := 0
  minerals : Int := 0
  alloys : Int := 0
  consumer_goods : Int := 0
  food : Int := 0
  unity : Int := 0
  influence : Int := 0
  physics_research : Int := 0
  society_research : Int := 0
  engineering_research : Int := 0
deriving DecidableEq

/-- One country entry of the save tree; `budget_balance` models
`country_dict["budget"]["current_month"]["balance"].items()` (a `none` value is
a falsy/non-dict entry, skipped by `if not values: continue`). -/
structure CountryDict where
  name : Option String := none
  ctype : Option String := none
  country_type : Option String := none
  ruler : Option Int := none
  ethos : Option EthosDict := none
  government : Option GovernmentDict := none
  personality : Option String := none
  relations_manager : Option RelationsManager := none
  military_power : Int := 0
  tech_power : Int := 0
  fleet_size : Int := 0
  empire_size : Int := 0
  empire_cohesion : Int := 0
  victory_rank : Int := 0
  victory_score : Int := 0
  economy_power : Int := 0
  tech_status : Option TechStatusDict := none
  surveyed : Option (List Int) := none
  owned_planets : List Int := []
  owned_sectors : List Int := []
  ai : Option AiDict := some {}
  budget_balance : List (String × Option BudgetValues) := []
deriving DecidableEq

structure SectorDict where
  systems : List (Option Int) := []
deriving DecidableEq

structure TradeSide where
  country : Option Int := none
  research_agreement : Option String := none
  sensor_link : Option String := none
deriving DecidableEq

structure TradeDeal where
  first : Option TradeSide := none
  second : Option TradeSide := none
deriving DecidableEq

structure TruceDict where
  name : Option String := none
  truce_type : Option String := none
  start_date : Option Int := none
deriving DecidableEq

structure WarPartyInfo where
  country : Int
deriving DecidableEq

structure WarDict where
  name : Option String := none
  start_date : Int := 0
  defender_force_peace : Option String := none
  defender_force_peace_date : Option Int := none
  attacker_force_peace : Option String := none
  attacker_force_peace_date : Option Int := none
  attacker_war_goal : Option String := none
  defender_war_goal : Option String := none
  attackers : List WarPartyInfo := []
  defenders : List WarPartyInfo := []
deriving DecidableEq

structure HyperlaneDict where
  hlto : Option Int := none
deriving DecidableEq

structure GalObjDict where
  name : Option String := none
  star_class : Option String := none
  coordinate_x : Int := 0
  coordinate_y : Int := 0
  hyperlane : List HyperlaneDict := []
deriving DecidableEq

/-- The top-level parsed gamestate.  `date`, `player`, `country`, `sectors` …
are required top-level keys of the engine input contract; entries of the
id-keyed sections are `Option`-valued because the save can map an id to a
non-dictionary scalar. -/
structure Gamestate where
  date : Int
  player : List PlayerEntry := []
  country : List (Int × Option CountryDict) := []
  galactic_object : List (Int × Option GalObjDict) := []
  war : List (Int × Option WarDict) := []
  truce : List (Int × Option TruceDict) := []
  sectors : List (Int × Option SectorDict) := []
  trade_deal : List (Int × Option TradeDeal) := []
  pop_factions : List (Int × Option Unit) := []
deriving DecidableEq

/-! ### Generic helpers -/

def lookupById {α : Type} (l : List (Int × α)) (k : Int) : Option α :=
  (l.find? (fun p => p.1 == k)).map Prod.snd

def dedupInts : List Int → List Int
  | [] => []
  | x :: xs => if x ∈ xs then dedupInts xs else x :: dedupInts xs

def insertSorted (x : String) : List String → List String
  | [] => [x]
  | y :: ys => if x ≤ y then x :: y :: ys else y :: insertSorted x ys

def sortStr (l : List String) : List String := l.foldr insertSorted []

def dedupAdj : List String → List String
  | [] => []
  | [x] => [x]
  | x :: y :: ys => if x = y then dedupAdj (y :: ys) else x :: dedupAdj (y :: ys)

/-- Python's `sorted(set(l))`: sort, then drop (now adjacent) duplicates. -/
def sortedSet (l : List String) : List String := dedupAdj (sortStr l)

/-- `query(...).filter(p).order_by(key.desc()).first()`: the index and value of a
matching element with maximal key (first such index on ties). -/
def bestIdxAux {α : Type} (p : α → Bool) (key : α → Int) : List α → Nat → Option (Nat × α)
  | [], _ => none
  | x :: xs, i =>
    let rest := bestIdxAux p key xs (i + 1)
    if p x then
      match rest with
      | none => some (i, x)
      | some (j, y) => if key x < key y then some (j, y) else some (i, x)
    else rest

def bestIdx {α : Type} (p : α → Bool) (key : α → Int) (l : List α) : Option (Nat × α) :=
  bestIdxAux p key l 0

def findCountry (countries : List Country) (cid : Int) : Option Country :=
  countries.find? (fun c => c.country_id_in_game == cid)

def SUPPORTED_COUNTRY_TYPES : List String := ["default", "fallen_empire", "awakened_fallen_empire"]

/-- `_get_current_ruler`.  `country_dict.get("ruler", -1)`; negative ids yield no
ruler; otherwise the first active leader row with that in-game id (the event rows
store the leader's in-game id). -/
def get_current_ruler (leaders : List Leader) (cd : Option CountryDict) : Option Int :=
  match cd with
  | none => none
  | some cd =>
    let ruler_id := cd.ruler.getD (-1)
    if ruler_id < 0 then none
    else ((leaders.find? (fun l => l.leader_id_in_game == ruler_id && l.is_active)).map
      (fun l => l.leader_id_in_game))

/-! ### Known-to-player flag updates (C3)

Every site in `timeline.py` that touches a `HistoricalEvent`'s visibility flag
after creation, as an operation on the row.  The parameters carry the values the
site computes (`is_known_to_player` from `has_met_player`, or from the
attitude's `reveals_*` predicates). -/

inductive EventUpdateOp where
  /-- `_history_add_or_update_diplomatic_events`, timeline.py:741-742. -/
  | diplomatic (date : Int) (isKnown : Bool)
  /-- `_history_add_or_update_faction_leader_event`, timeline.py:1750-1751. -/
  | factionLeader (date : Int) (isKnown : Bool)
  /-- `_history_add_or_update_ruler`, timeline.py:1330-1331. -/
  | rulerExtend (date : Int) (hasMet : Bool)
  /-- `_history_add_or_update_habitable_megastructure_construction_event`, timeline.py:1683-1684. -/
  | megastructure (hasMet : Bool)
  /-- End-date extensions that leave both flags alone (tech events 1222,
  research leader 1252, terraforming 1540, colonization 1642, governor 1699). -/
  | extendEnd (date : Int)
deriving DecidableEq

def applyEventUpdate (e : HistoricalEvent) : EventUpdateOp → HistoricalEvent
  | .diplomatic d k => { e with end_date_days := some d, is_known_to_player := some k }
  | .factionLeader d k => { e with end_date_days := some d, is_known_to_player := some k }
  | .rulerExtend d k => { e with end_date_days := some (d - 1), is_known_to_player := some k }
  | .megastructure met =>
    if e.event_is_known_to_player then e else { e with event_is_known_to_player := met }
  | .extendEnd d => { e with end_date_days := some d }

/-- C3: the persisted known-to-player flag of an interval fact is monotone:
once it is true after some snapshot, no sequence of reconciliation updates from
later snapshots makes it false again (the only update that writes the persisted
flag at all, the megastructure one, does so only while the flag is still false). -/
theorem known_to_player_monotone (e : HistoricalEvent) (ops : List EventUpdateOp)
    (h : e.event_is_known_to_player = true) :
    (ops.foldl applyEventUpdate e).event_is_known_to_player = true := by
  induction ops generalizing e with
  | nil => exact h
  | cons op ops ih =>
    apply ih
    cases op with
    | diplomatic d k => simpa [applyEventUpdate] using h
    | factionLeader d k => simpa [applyEventUpdate] using h
    | rulerExtend d k => simpa [applyEventUpdate] using h
    | megastructure met => simp [applyEventUpdate, h]
    | extendEnd d => simpa [applyEventUpdate] using h

/-- Witness for C3 at a concrete event and update sequence. -/
theorem known_to_player_monotone_witness :
    (({ event_type := .faction_leader, event_is_known_to_player := true } : HistoricalEvent)).event_is_known_to_player = true
    ∧ (([EventUpdateOp.factionLeader 10 false, EventUpdateOp.megastructure false,
        EventUpdateOp.diplomatic 20 false]).foldl applyEventUpdate
        { event_type := .faction_leader, event_is_known_to_player := true }).event_is_known_to_player = true :=
  ⟨rfl, known_to_player_monotone { event_type := .faction_leader, event_is_known_to_player := true } _ rfl⟩

/-! ### Diplomacy (`_process_diplomacy`, `_history_add_or_update_diplomatic_events`) -/

def mkDiploEvent (et : HistoricalEventType) (cid tcid : Int) (rulerId : Option Int)
    (date : Int) (isKnown : Bool) : HistoricalEvent :=
  { event_type := et, country := some cid, target_country := some tcid, leader := rulerId,
    start_date_days := date, end_date_days := some date, event_is_known_to_player := isKnown }

/-- The interval-reconciliation step of `_history_add_or_update_diplomatic_events`
(timeline.py:724-743) for one direction of one predicate: find the most recent
event with the same (type, country, target); if none exists or its end day is
older than the staleness window (`end < date - 5*360`), append a fresh event
starting and ending today; otherwise advance its end day in place (and assign the
transient visibility attribute, see `EventUpdateOp.diplomatic`). -/
def reconcileDiploEvent (events : List HistoricalEvent) (date : Int)
    (et : HistoricalEventType) (cid tcid : Int) (rulerId : Option Int) (isKnown : Bool) :
    Except String (List HistoricalEvent) :=
  match bestIdx
      (fun e => e.event_type == et && e.country == some cid && e.target_country == some tcid)
      (fun e => e.start_date_days) events with
  | none => .ok (events ++ [mkDiploEvent et cid tcid rulerId date isKnown])
  | some (i, e) =>
    match e.end_date_days with
    | none => .error "comparison of NULL end_date_days"
    | some endDay =>
      if endDay < date - 5 * 360 then
        .ok (events ++ [mkDiploEvent et cid tcid rulerId date isKnown])
      else
        .ok (events.set i (applyEventUpdate e (.diplomatic date isKnown)))

/-- `_history_add_or_update_diplomatic_events` (timeline.py:666-743).  The seven
predicates and their paired event types are the `diplo_relations` list; each true
predicate reconciles both directions.  An error models the unguarded
`target_country_dict.get(...)` call on a missing or non-dict country entry. -/
def history_add_or_update_diplomatic_events (gs : Gamestate) (date : Int) (store : Store)
    (countryModel : Country) (cd : CountryDict) (relation : Relation) :
    Except String Store := do
  match relation.country with
  | none => pure store
  | some rc =>
    match findCountry store.countries rc with
    | none => pure store
    | some target =>
      let ruler := get_current_ruler store.leaders (some cd)
      match lookupById gs.country target.country_id_in_game with
      | none => throw "target country dict missing"
      | some none => throw "target country entry is not a dict"
      | some (some tcd) =>
        let tcRuler := match tcd.country_type with
          | some t =>
            if t ∈ SUPPORTED_COUNTRY_TYPES then get_current_ruler store.leaders (some tcd)
            else none
          | none => none
        let isKnown := has_met_player countryModel && has_met_player target
        let diploRelations : List (HistoricalEventType × HistoricalEventType × Bool) :=
          [(.sent_rivalry, .received_rivalry, relation.is_rival == some "yes"),
           (.closed_borders, .received_closed_borders, relation.closed_borders == some "yes"),
           (.defensive_pact, .defensive_pact, relation.defensive_pact == some "yes"),
           (.formed_federation, .formed_federation, relation.alliance == some "yes"),
           (.non_aggression_pact, .non_aggression_pact, relation.non_aggression_pledge == some "yes"),
           (.first_contact, .first_contact, relation.communications == some "yes"),
           (.commercial_pact, .commercial_pact, relation.commercial_pact == some "yes")]
        let evs ← diploRelations.foldlM (fun evs entry => do
          if entry.2.2 then
            let evs1 ← reconcileDiploEvent evs date entry.1 countryModel.country_id_in_game
              target.country_id_in_game ruler isKnown
            reconcileDiploEvent evs1 date entry.2.1 target.country_id_in_game
              countryModel.country_id_in_game tcRuler isKnown
          else pure evs) store.events
        pure { store with events := evs }

/-- The per-country diplomacy flags towards the player
(`diplomacy_towards_player`); note that the update at timeline.py:653-662 does
not set `has_commercial_pact_with_player`. -/
structure DiploFlags where
  has_rivalry_with_player : Bool := false
  has_defensive_pact_with_player : Bool := false
  has_federation_with_player : Bool := false
  has_non_aggression_pact_with_player : Bool := false
  has_closed_borders_with_player : Bool := false
  has_communications_with_player : Bool := false
  has_migration_treaty_with_player : Bool := false
  has_commercial_pact_with_player : Bool := false
  is_player_neighbor : Bool := false
deriving DecidableEq

def firstDictRelation : List (Option Relation) → Option Relation
  | [] => none
  | some r :: _ => some r
  | none :: rest => firstDictRelation rest

/-- The `diplomacy_towards_player` result of `_process_diplomacy`: all flags
default to false; the first dict relation record updates them when it is the
relation towards the player (timeline.py:652-662).  A pure function of the
country dict and the player id. -/
def diploFlagsOf (playerId : Int) (cd : CountryDict) : DiploFlags :=
  let flags0 : DiploFlags := {}
  match cd.relations_manager with
  | none => flags0
  | some rm =>
    match firstDictRelation rm.relation with
    | none => flags0
    | some relation =>
      if relation.country == some playerId then
        { flags0 with
          has_rivalry_with_player := relation.is_rival == some "yes",
          has_defensive_pact_with_player := relation.defensive_pact == some "yes",
          has_federation_with_player := relation.alliance == some "yes",
          has_non_aggression_pact_with_player := relation.non_aggression_pledge == some "yes",
          has_closed_borders_with_player := relation.closed_borders == some "yes",
          has_communications_with_player := relation.communications == some "yes",
          has_migration_treaty_with_player := relation.migration_access == some "yes",
          is_player_neighbor := relation.borders == some "yes" }
      else flags0

/-- `_process_diplomacy` (timeline.py:627-664).  The `for relation in
relation_list` loop body skips non-dict entries with `continue` and otherwise
ends in an unconditional `break` (line 663): only the first dict entry of the
relation list is ever processed — both for the historical events and for the
towards-player flags. -/
def process_diplomacy (onlyReadPlayerHistory : Bool) (gs : Gamestate) (date : Int)
    (playerId : Int) (store : Store) (countryModel : Country) (cd : CountryDict) :
    Except String (Store × DiploFlags) :=
  (match cd.relations_manager with
   | none => Except.ok store
   | some rm =>
     match firstDictRelation rm.relation with
     | none => Except.ok store
     | some relation =>
       if !onlyReadPlayerHistory || countryModel.is_player then
         history_add_or_update_diplomatic_events gs date store countryModel cd relation
       else Except.ok store).map
    (fun store1 => (store1, diploFlagsOf playerId cd))

def c1Country0 : Country := { country_id_in_game := 0 }

def c1Country1 : Country := { country_id_in_game := 1 }

def c1Country2 : Country := { country_id_in_game := 2 }

def c1Relation1 : Relation := { country := some 1, is_rival := some "yes" }

def c1Relation2 : Relation := { country := some 2, is_rival := some "yes" }

def c1Cd : CountryDict :=
  { relations_manager := some { relation := [some c1Relation1, some c1Relation2] } }

def c1Gs : Gamestate :=
  { date := 100,
    country := [(0, some c1Cd), (1, some ({} : CountryDict)), (2, some ({} : CountryDict))] }

def c1Store : Store := { countries := [c1Country0, c1Country1, c1Country2] }

/-- C1: a country whose relations list holds two relation records, each with a
true rivalry predicate towards a country already in the store.  The claim says a
pair of symmetric interval events is reconciled for *every* relation record; the
code's loop body ends in an unconditional `break` (timeline.py:663), so only the
first record produces its event pair — no event involving the second record's
target (country 2) exists afterwards. -/
theorem process_diplomacy_break_behavior :
    (process_diplomacy false c1Gs 100 99 c1Store c1Country0 c1Cd).toOption.map
      (fun r => r.1.events.map (fun e => (e.event_type, e.country, e.target_country))) =
      some [(.sent_rivalry, some 0, some 1), (.received_rivalry, some 1, some 0)] := by
  decide

/-! ### Government (`_extract_country_government`, timeline.py:225-288) -/

def govNameOf (cd : CountryDict) : String := cd.name.getD "Unnamed Country"

def govEthicsOf (cd : CountryDict) : List String :=
  sortedSet (match cd.ethos with
    | some e => e.ethic
    | none => [])

def govCivicsOf (cd : CountryDict) : List String :=
  sortedSet (match cd.government with
    | some g => g.civics
    | none => [])

def govAuthorityOf (cd : CountryDict) : String :=
  match cd.government with
  | some g => g.authority.getD "other"
  | none => "other"

def govTypeOf (cd : CountryDict) : String :=
  match cd.government with
  | some g => g.gov_type.getD "other"
  | none => "other"

/-- The comparison `_extract_country_government` performs at timeline.py:256-259:
ethics set, civics set, name and type.  The `authority` value is stored but not
compared. -/
def govTupleUnchanged (prev : Government) (cd : CountryDict) : Bool :=
  govEthicsOf cd == prev.ethics && govCivicsOf cd == prev.civics
    && govNameOf cd == prev.gov_name && govTypeOf cd == prev.gov_type

/-- The Government row both branches construct: start day `date - 1`, end day
`date + 1`, ethics/civics columns holding the first five sorted set elements. -/
def mkGovernment (cid : Int) (date : Int) (cd : CountryDict) : Government :=
  { country := cid, start_date_days := date - 1, end_date_days := date + 1,
    gov_name := govNameOf cd, gov_type := govTypeOf cd, authority := govAuthorityOf cd,
    personality := cd.personality.getD "unknown_personality",
    ethics := (govEthicsOf cd).take 5, civics := (govCivicsOf cd).take 5 }

def governmentReformEvent (date : Int) (countryModel : Country) (rulerId : Option Int) :
    HistoricalEvent :=
  { event_type := .government_reform, country := some countryModel.country_id_in_game,
    leader := rulerId, start_date_days := date, end_date_days := some date,
    event_is_known_to_player := has_met_player countryModel }

/-- The `prev_gov` query: most recent Government of the country with
`start_date_days <= date`. -/
def prevGovernment (govs : List Government) (cid : Int) (date : Int) :
    Option (Nat × Government) :=
  bestIdx (fun g => g.country == cid && decide (g.start_date_days ≤ date))
    (fun g => g.start_date_days) govs

/-- `_extract_country_government`.  Note: when a previous Government exists its
`end_date_days` is set to `date - 1` *before* the changed/unchanged comparison,
so the "unchanged" branch still advances the open interval's end day. -/
def extract_country_government (date : Int) (store : Store) (countryModel : Country)
    (cd : CountryDict) : Store :=
  match prevGovernment store.governments countryModel.country_id_in_game date with
  | none =>
    { store with governments :=
        store.governments ++ [mkGovernment countryModel.country_id_in_game date cd] }
  | some (i, prev) =>
    let govs1 := store.governments.set i { prev with end_date_days := date - 1 }
    if govTupleUnchanged prev cd then
      { store with governments := govs1 }
    else
      { store with
        governments := govs1 ++ [mkGovernment countryModel.country_id_in_game date cd],
        events := store.events ++
          [governmentReformEvent date countryModel (get_current_ruler store.leaders (some cd))] }

def c2PrevGov : Government :=
  { country := 7, start_date_days := 0, end_date_days := 1, gov_name := "N", gov_type := "T",
    authority := "auth_one", personality := "p", ethics := ["e"], civics := ["c"] }

def c2Country : Country := { country_id_in_game := 7 }

def c2Store : Store := { governments := [c2PrevGov], countries := [c2Country] }

def c2CdAuthority : CountryDict :=
  { name := some "N", ethos := some { ethic := ["e"] },
    government := some { civics := ["c"], authority := some "auth_two", gov_type := some "T" },
    personality := some "p" }

def c2CdReform : CountryDict := { c2CdAuthority with ethos := some { ethic := ["e2"] } }

/-- C2, counterexample.  The country reports the same ethics, civics, type and
name but a different `authority` ("auth_two" vs the stored "auth_one").  The
claim says the (ethics, civics, authority, type, name) tuple is compared, so a
change must close the old interval, open a new one and emit a reform event; and
that an unchanged tuple is a no-op.  The code compares a tuple without
`authority` and treats this input as unchanged — afterwards there is still
exactly one Government interval, no reform event, and the stored interval was
mutated anyway (its end day advanced to `date - 1 = 99`), so neither branch of
the claim holds. -/
theorem extract_country_government_counterexample :
    govAuthorityOf c2CdAuthority ≠ c2PrevGov.authority
    ∧ (extract_country_government 100 c2Store c2Country c2CdAuthority).governments =
        [{ c2PrevGov with end_date_days := 99 }]
    ∧ (extract_country_government 100 c2Store c2Country c2CdAuthority).events = [] := by
  decide

/-- C2, amended.  When processing a country's government at day `date`, the new
(ethics, civics, type, name) tuple — authority excluded — is compared to the most
recent Government interval of the country: if there is no previous interval, a
new one is opened (start `date - 1`, end `date + 1`) and no event is emitted;
if the tuple is unchanged, the only modification is that the previous interval's
end day is set to `date - 1`; if it changed, the old interval is closed with end
day `date - 1`, a new interval is opened with start day `date - 1`, and a
"government reform" event dated `date` is emitted. -/
theorem extract_country_government_amended (date : Int) (store : Store)
    (countryModel : Country) (cd : CountryDict) :
    (prevGovernment store.governments countryModel.country_id_in_game date = none →
      (extract_country_government date store countryModel cd).governments =
        store.governments ++ [mkGovernment countryModel.country_id_in_game date cd]
      ∧ (extract_country_government date store countryModel cd).events = store.events)
    ∧ (∀ i prev,
        prevGovernment store.governments countryModel.country_id_in_game date = some (i, prev) →
        (govTupleUnchanged prev cd = true →
          (extract_country_government date store countryModel cd).governments =
            store.governments.set i { prev with end_date_days := date - 1 }
          ∧ (extract_country_government date store countryModel cd).events = store.events)
        ∧ (govTupleUnchanged prev cd = false →
          (extract_country_government date store countryModel cd).governments =
            store.governments.set i { prev with end_date_days := date - 1 }
              ++ [mkGovernment countryModel.country_id_in_game date cd]
          ∧ (extract_country_government date store countryModel cd).events =
            store.events ++ [governmentReformEvent date countryModel
              (get_current_ruler store.leaders (some cd))])) := by
  constructor
  · intro hnone
    unfold extract_country_government
    rw [hnone]
    exact ⟨rfl, rfl⟩
  · intro i prev hsome
    constructor
    · intro hsame
      unfold extract_country_government
      rw [hsome]
      simp only [hsame, if_true]
      exact ⟨by simp, by simp⟩
    · intro hdiff
      unfold extract_country_government
      rw [hsome]
      simp only [hdiff, Bool.false_eq_true, if_false]
      exact ⟨by simp, by simp⟩

/-- Witness for the amended C2 theorem: a genuine reform (changed ethics) closes
the stored interval at day 99, opens a new interval and emits the reform event. -/
theorem extract_country_government_amended_witness :
    govTupleUnchanged c2PrevGov c2CdReform = false
    ∧ ((extract_country_government 100 c2Store c2Country c2CdReform).governments =
        c2Store.governments.set 0 { c2PrevGov with end_date_days := 100 - 1 }
          ++ [mkGovernment 7 100 c2CdReform]
      ∧ (extract_country_government 100 c2Store c2Country c2CdReform).events =
        c2Store.events ++ [governmentReformEvent 100 c2Country
          (get_current_ruler c2Store.leaders (some c2CdReform))]) :=
  ⟨by decide,
    ((extract_country_government_amended 100 c2Store c2Country c2CdReform).2 0 c2PrevGov
      (by decide)).2 (by decide)⟩

/-! ### Wars (`_extract_wars`, `_settle_finished_wars`, `_history_add_peace_events`)

`_extract_combat_victories` (battle/Combat extraction) is not modelled: it
creates only Combat/CombatParticipant rows and combat events, none of which any
claim under study mentions, and it never touches a War's outcome. -/

/-- The war row created by `_extract_wars` when no (or only a stale, settled)
war of that name exists. -/
def mkWar (war_id : Int) (wd : WarDict) (date : Int) : War :=
  { war_id_in_game := war_id, start_date_days := wd.start_date, end_date_days := date,
    name := wd.name.getD "Unnamed war", outcome := .in_progress }

/-- The most recent War row by name: `query(War).order_by(start_date_days.desc()).
filter_by(game, name).first()`. -/
def findWarByName (wars : List War) (n : String) : Option (Nat × War) :=
  bestIdx (fun w => w.name == n) (fun w => w.start_date_days) wars

/-- The war-participant upsert of `_extract_wars` (timeline.py:944-981): for
every attacker or defender, look up the country row; a participant country id
missing from the gamestate's country section is an unguarded `KeyError`
(line 951); a country without a DB row is logged and dropped.  First sight adds
a WarParticipant (attackers get the attacker goal, defenders the defender goal)
plus a "joined war" event; afterwards a still-missing war goal is filled with
the defender goal. -/
def warParticipantStep (gs : Gamestate) (date : Int) (warIdx : Nat) (wd : WarDict)
    (st : Store) (p : WarPartyInfo) : Except String Store :=
  match lookupById gs.country p.country with
  | none => throw "KeyError: war participant country missing from gamestate"
  | some ocd =>
    match findCountry st.countries p.country with
    | none =>
      match ocd with
      | some cd =>
        match cd.name with
        | some _ => pure st
        | none => throw "KeyError: country name"
      | none => throw "TypeError: country entry is not a dict"
    | some dbc =>
      match st.warParticipants.findIdx? (fun q => q.war == warIdx && q.country == p.country) with
      | none =>
        let is_attacker := p.country ∈ wd.attackers.map (fun q => q.country)
        let war_goal := if is_attacker then wd.attacker_war_goal else wd.defender_war_goal
        let newP : WarParticipant :=
          { war := warIdx, country := p.country, is_attacker := is_attacker,
            war_goal := if war_goal.isNone then wd.defender_war_goal else war_goal }
        let ev : HistoricalEvent :=
          { event_type := .war, country := some p.country,
            leader := get_current_ruler st.leaders ocd, start_date_days := date,
            end_date_days := some date, war := some warIdx,
            event_is_known_to_player := has_met_player dbc }
        pure { st with
          warParticipants := st.warParticipants ++ [newP],
          events := st.events ++ [ev] }
      | some pi =>
        match st.warParticipants.get? pi with
        | none => pure st
        | some q =>
          let q' := if q.war_goal.isNone then { q with war_goal := wd.defender_war_goal } else q
          pure { st with warParticipants := st.warParticipants.set pi q' }

def upsertWarParticipants (gs : Gamestate) (date : Int) (warIdx : Nat) (wd : WarDict) :
    Store → Except String Store := fun store =>
  (wd.attackers ++ wd.defenders).foldlM (warParticipantStep gs date warIdx wd) store

/-- One entry of the `_extract_wars` loop (timeline.py:908-983).  A fresh
`in_progress` war row is created when no war of that name exists or the most
recent one is settled and stale; otherwise the force-peace flags fire first
(even on an already settled record), then a settled record is skipped, then a
still-running war's end day is advanced. -/
def extractWarsStep (gs : Gamestate) (date : Int) (st : Store) :
    Int × Option WarDict → Except String Store := fun entry =>
  match entry.2 with
  | none => pure st
  | some wd =>
    match findWarByName st.wars (wd.name.getD "Unnamed war") with
    | none =>
      upsertWarParticipants gs date st.wars.length wd
        { st with wars := st.wars ++ [mkWar entry.1 wd date] }
    | some (i, w) =>
      if !(w.outcome == .in_progress) && decide (w.end_date_days < date - 5 * 360) then
        upsertWarParticipants gs date st.wars.length wd
          { st with wars := st.wars ++ [mkWar entry.1 wd date] }
      else if wd.defender_force_peace == some "yes" then
        match wd.defender_force_peace_date with
        | none => throw "date_to_days(None)"
        | some d =>
          upsertWarParticipants gs date i wd
            { st with wars := st.wars.set i { w with outcome := .status_quo, end_date_days := d } }
      else if wd.attacker_force_peace == some "yes" then
        match wd.attacker_force_peace_date with
        | none => throw "date_to_days(None)"
        | some d =>
          upsertWarParticipants gs date i wd
            { st with wars := st.wars.set i { w with outcome := .status_quo, end_date_days := d } }
      else if !(w.outcome == .in_progress) then pure st
      else
        upsertWarParticipants gs date i wd
          { st with wars := st.wars.set i { w with end_date_days := date } }

def extract_wars (gs : Gamestate) (date : Int) (store : Store) : Except String Store :=
  if gs.war.isEmpty then pure store
  else gs.war.foldlM (fun st entry => extractWarsStep gs date st entry) store

/-- The ruler attached to a peace event: `_get_current_ruler(gamestate["country"]
.get(cid, {}))` — a missing entry yields an empty dict (hence no ruler), a
non-dict entry fails the `isinstance` check. -/
def rulerForPeace (gs : Gamestate) (leaders : List Leader) (cid : Int) : Option Int :=
  match lookupById gs.country cid with
  | none => get_current_ruler leaders (some ({} : CountryDict))
  | some none => get_current_ruler leaders none
  | some (some cd) => get_current_ruler leaders (some cd)

def mkPeaceEvent (gs : Gamestate) (st : Store) (w : War) (warIdx : Nat)
    (wp : WarParticipant) : HistoricalEvent :=
  { event_type := .peace, country := some wp.country,
    leader := rulerForPeace gs st.leaders wp.country,
    start_date_days := w.end_date_days, war := some warIdx,
    event_is_known_to_player := ((findCountry st.countries wp.country).map has_met_player).getD false }

/-- One participant of `_history_add_peace_events`: add a peace event unless
one already exists for this (country, war). -/
def peaceStep (gs : Gamestate) (w : War) (warIdx : Nat) (st : Store)
    (wp : WarParticipant) : Store :=
  if wp.war == warIdx then
    match st.events.find? (fun e => e.event_type == .peace && e.country == some wp.country
        && e.war == some warIdx) with
    | some _ => st
    | none => { st with events := st.events ++ [mkPeaceEvent gs st w warIdx wp] }
  else st

/-- `_history_add_peace_events` (timeline.py:1816-1831): one peace event per
participant of the war, unless one already exists for that (country, war). -/
def history_add_peace_events (gs : Gamestate) (store : Store) (warIdx : Nat) : Store :=
  match store.wars.get? warIdx with
  | none => store
  | some w => store.warParticipants.foldl (peaceStep gs w warIdx) store

/-- The outcome `_settle_finished_wars` assigns from the two sides' accumulated
war exhaustion (timeline.py:1424-1430): the strictly lower side wins, a tie is a
status quo. -/
def exhaustionOutcome (w : War) : WarOutcome :=
  if w.attacker_war_exhaustion < w.defender_war_exhaustion then .attacker_victory
  else if w.defender_war_exhaustion < w.attacker_war_exhaustion then .defender_victory
  else .status_quo

/-- The truce's start day, when present, becomes the war's end day
(timeline.py:1420-1422) — even for an already settled war. -/
def truceEndUpdated (tr : TruceDict) (w : War) : War :=
  match tr.start_date with
  | some v => { w with end_date_days := v }
  | none => w

/-- One truce entry of `_settle_finished_wars` (timeline.py:1410-1432).  A
falsy war name (absent or empty) or a non-war truce type is skipped; the matched
war's end day is updated from the truce start; only a war still in progress gets
an outcome (by exhaustion comparison) and peace events. -/
def settleTruceStep (gs : Gamestate) (st : Store) : Int × Option TruceDict → Store := fun entry =>
  match entry.2 with
  | none => st
  | some tr =>
    match tr.name with
    | none => st
    | some n =>
      if n == "" || !(tr.truce_type.getD "other" == "war") then st
      else
        match findWarByName st.wars n with
        | none => st
        | some (i, w) =>
          if (truceEndUpdated tr w).outcome == .in_progress then
            history_add_peace_events gs
              { st with wars := st.wars.set i { truceEndUpdated tr w with
                  outcome := exhaustionOutcome (truceEndUpdated tr w) } } i
          else { st with wars := st.wars.set i (truceEndUpdated tr w) }

/-- One war of the stale-war pass of `_settle_finished_wars`
(timeline.py:1434-1438): a war still in progress whose end day lies beyond the
staleness window gets outcome `unknown` and peace events. -/
def settleStaleStep (gs : Gamestate) (date : Int) (st : Store) (i : Nat) : Store :=
  match st.wars.get? i with
  | none => st
  | some w =>
    if w.outcome == .in_progress && decide (w.end_date_days < date - 5 * 360) then
      history_add_peace_events gs
        { st with wars := st.wars.set i { w with outcome := .unknown } } i
    else st

def settle_finished_wars (gs : Gamestate) (date : Int) (store : Store) : Store :=
  let st1 := gs.truce.foldl (settleTruceStep gs) store
  (List.range st1.wars.length).foldl (settleStaleStep gs date) st1

lemma get?_set_ne {α : Type} : ∀ (l : List α) (i j : Nat) (a : α), i ≠ j →
    (l.set i a).get? j = l.get? j
  | [], _, _, _, _ => rfl
  | _ :: _, 0, 0, _, h => absurd rfl h
  | _ :: _, 0, _ + 1, _, _ => rfl
  | _ :: _, _ + 1, 0, _, _ => rfl
  | _ :: xs, i + 1, j + 1, a, h => by
    simp only [List.set, List.get?]
    exact get?_set_ne xs i j a (fun hh => h (by rw [hh]))

lemma get?_set_self {α : Type} : ∀ (l : List α) (i : Nat) (a : α), i < l.length →
    (l.set i a).get? i = some a
  | [], i, _, h => by simp at h
  | _ :: _, 0, _, _ => rfl
  | _ :: xs, i + 1, a, h => by
    simp only [List.set, List.get?]
    exact get?_set_self xs i a (by simpa using h)

lemma foldl_inv {β : Type} (f : Store → β → Store) (I : Store → Prop)
    (hf : ∀ st b, I st → I (f st b)) :
    ∀ (l : List β) (st : Store), I st → I (l.foldl f st) := by
  intro l
  induction l with
  | nil => intro st h; exact h
  | cons b bs ih => intro st h; exact ih (f st b) (hf st b h)

lemma bestIdxAux_get? {α : Type} (p : α → Bool) (key : α → Int) :
    ∀ (l : List α) (k i : Nat) (x : α), bestIdxAux p key l k = some (i, x) →
      k ≤ i ∧ l.get? (i - k) = some x ∧ p x = true := by
  intro l
  induction l with
  | nil => intro k i x h; simp [bestIdxAux] at h
  | cons y ys ih =>
    intro k i x h
    simp only [bestIdxAux] at h
    by_cases hp : p y = true
    · rw [if_pos hp] at h
      cases hrest : bestIdxAux p key ys (k + 1) with
      | none =>
        rw [hrest] at h
        simp only [Option.some.injEq, Prod.mk.injEq] at h
        obtain ⟨hik, hx⟩ := h
        subst hik
        subst hx
        exact ⟨Nat.le_refl _, by simp, hp⟩
      | some jz =>
        rw [hrest] at h
        obtain ⟨j, z⟩ := jz
        have hihr := ih (k + 1) j z hrest
        have h : (if key y < key z then some (j, z) else some (k, y)) = some (i, x) := h
        by_cases hlt : key y < key z
        · rw [if_pos hlt] at h
          simp only [Option.some.injEq, Prod.mk.injEq] at h
          obtain ⟨hij, hxz⟩ := h
          refine ⟨by omega, ?_, by rw [← hxz]; exact hihr.2.2⟩
          have h1 : i - k = (j - (k + 1)) + 1 := by omega
          rw [h1]
          simp only [List.get?]
          rw [← hxz]
          exact hihr.2.1
        · rw [if_neg hlt] at h
          simp only [Option.some.injEq, Prod.mk.injEq] at h
          obtain ⟨hik, hx⟩ := h
          subst hik
          subst hx
          exact ⟨Nat.le_refl _, by simp, hp⟩
    · rw [if_neg hp] at h
      have hihr := ih (k + 1) i x h
      refine ⟨by omega, ?_, hihr.2.2⟩
      have : i - k = (i - (k + 1)) + 1 := by omega
      rw [this]
      simpa using hihr.2.1

lemma bestIdx_get? {α : Type} (p : α → Bool) (key : α → Int) (l : List α) (i : Nat) (x : α)
    (h : bestIdx p key l = some (i, x)) : l.get? i = some x ∧ p x = true := by
  have := bestIdxAux_get? p key l 0 i x h
  exact ⟨by simpa using this.2.1, this.2.2⟩

lemma get?_lt_length {α : Type} (l : List α) (i : Nat) (x : α) (h : l.get? i = some x) :
    i < l.length := by
  by_contra hge
  rw [List.get?_eq_none.mpr (by omega)] at h
  exact Option.noConfusion h

lemma peaceStep_fields (gs : Gamestate) (w : War) (warIdx : Nat) (st : Store)
    (wp : WarParticipant) :
    (peaceStep gs w warIdx st wp).wars = st.wars
    ∧ (peaceStep gs w warIdx st wp).warParticipants = st.warParticipants
    ∧ ∃ suf, (peaceStep gs w warIdx st wp).events = st.events ++ suf := by
  unfold peaceStep
  by_cases h : (wp.war == warIdx) = true
  · rw [if_pos h]
    cases hfind : st.events.find? (fun e => e.event_type == .peace
        && e.country == some wp.country && e.war == some warIdx) with
    | none => exact ⟨rfl, rfl, [mkPeaceEvent gs st w warIdx wp], rfl⟩
    | some e => exact ⟨rfl, rfl, [], by simp⟩
  · rw [if_neg h]
    exact ⟨rfl, rfl, [], by simp⟩

lemma history_add_peace_events_fields (gs : Gamestate) (store : Store) (warIdx : Nat) :
    (history_add_peace_events gs store warIdx).wars = store.wars
    ∧ (history_add_peace_events gs store warIdx).warParticipants = store.warParticipants
    ∧ ∃ suf, (history_add_peace_events gs store warIdx).events = store.events ++ suf := by
  unfold history_add_peace_events
  cases hget : store.wars.get? warIdx with
  | none => exact ⟨rfl, rfl, [], by simp⟩
  | some w =>
    refine foldl_inv (peaceStep gs w warIdx)
      (fun st => st.wars = store.wars ∧ st.warParticipants = store.warParticipants
        ∧ ∃ suf, st.events = store.events ++ suf)
      ?_ store.warParticipants store ⟨rfl, rfl, [], by simp⟩
    intro st b hI
    obtain ⟨hw, hp, s1, he⟩ := hI
    obtain ⟨hw2, hp2, s2, he2⟩ := peaceStep_fields gs w warIdx st b
    exact ⟨hw2.trans hw, hp2.trans hp, s1 ++ s2, by rw [he2, he, List.append_assoc]⟩

lemma peaceFold_covers (gs : Gamestate) (w : War) (warIdx : Nat) :
    ∀ (ps : List WarParticipant) (st : Store) (wp : WarParticipant),
      wp ∈ ps → wp.war = warIdx →
      ∃ e ∈ (ps.foldl (peaceStep gs w warIdx) st).events,
        e.event_type = .peace ∧ e.country = some wp.country ∧ e.war = some warIdx := by
  intro ps
  induction ps with
  | nil => intro st wp h; simp at h
  | cons q qs ih =>
    intro st wp hmem hwar
    rcases List.mem_cons.mp hmem with heq | hmem'
    · subst heq
      have hex : ∃ e ∈ (peaceStep gs w warIdx st wp).events,
          e.event_type = .peace ∧ e.country = some wp.country ∧ e.war = some warIdx := by
        unfold peaceStep
        rw [if_pos (by simp [hwar])]
        cases hfind : st.events.find? (fun e => e.event_type == .peace
            && e.country == some wp.country && e.war == some warIdx) with
        | some e =>
          have hfound := List.find?_some hfind
          have hmemE := List.mem_of_find?_eq_some hfind
          simp only [Bool.and_eq_true, beq_iff_eq] at hfound
          exact ⟨e, hmemE, hfound.1.1, hfound.1.2, hfound.2⟩
        | none =>
          refine ⟨mkPeaceEvent gs st w warIdx wp, by simp, rfl, rfl, rfl⟩
      obtain ⟨e, hmemE, hprops⟩ := hex
      have hpres := foldl_inv (peaceStep gs w warIdx)
        (fun s => e ∈ s.events) ?_ qs (peaceStep gs w warIdx st wp) hmemE
      · exact ⟨e, by rw [List.foldl_cons]; exact hpres, hprops⟩
      · intro s b hI
        obtain ⟨-, -, suf, hsuf⟩ := peaceStep_fields gs w warIdx s b
        rw [hsuf]
        exact List.mem_append_left _ hI
    · rw [List.foldl_cons]
      exact ih (peaceStep gs w warIdx st q) wp hmem' hwar

lemma history_add_peace_events_covers (gs : Gamestate) (store : Store) (warIdx : Nat)
    (w : War) (hw : store.wars.get? warIdx = some w) (wp : WarParticipant)
    (hmem : wp ∈ store.warParticipants) (hwar : wp.war = warIdx) :
    ∃ e ∈ (history_add_peace_events gs store warIdx).events,
      e.event_type = .peace ∧ e.country = some wp.country ∧ e.war = some warIdx := by
  unfold history_add_peace_events
  rw [hw]
  exact peaceFold_covers gs w warIdx store.warParticipants store wp hmem hwar

lemma exhaustionOutcome_ne_in_progress (w : War) : exhaustionOutcome w ≠ .in_progress := by
  unfold exhaustionOutcome
  split
  · intro h; exact WarOutcome.noConfusion h
  · split
    · intro h; exact WarOutcome.noConfusion h
    · intro h; exact WarOutcome.noConfusion h

lemma settleStaleStep_eq_of_get (gs : Gamestate) (date : Int) (st : Store) (i : Nat)
    (wi : War) (hgi : st.wars.get? i = some wi) :
    settleStaleStep gs date st i =
      if wi.outcome == WarOutcome.in_progress && decide (wi.end_date_days < date - 5 * 360) then
        history_add_peace_events gs
          { st with wars := st.wars.set i { wi with outcome := .unknown } } i
      else st := by
  unfold settleStaleStep
  rw [hgi]

lemma settleStaleStep_eq_of_none (gs : Gamestate) (date : Int) (st : Store) (i : Nat)
    (hgi : st.wars.get? i = none) : settleStaleStep gs date st i = st := by
  unfold settleStaleStep
  rw [hgi]

lemma settleStaleStep_get_other (gs : Gamestate) (date : Int) (st : Store) (i j : Nat)
    (hij : i ≠ j) : (settleStaleStep gs date st i).wars.get? j = st.wars.get? j := by
  cases hgi : st.wars.get? i with
  | none => rw [settleStaleStep_eq_of_none gs date st i hgi]
  | some wi =>
    rw [settleStaleStep_eq_of_get gs date st i wi hgi]
    by_cases hcond : (wi.outcome == WarOutcome.in_progress
        && decide (wi.end_date_days < date - 5 * 360)) = true
    · rw [if_pos hcond]
      have hpf := (history_add_peace_events_fields gs
        { st with wars := st.wars.set i { wi with outcome := .unknown } } i).1
      rw [hpf]
      exact get?_set_ne _ _ _ _ hij
    · rw [if_neg hcond]

lemma settleStaleStep_term_preserved (gs : Gamestate) (date : Int) (st : Store) (i j : Nat)
    (w : War) (hget : st.wars.get? j = some w) (hterm : ¬ w.outcome = .in_progress) :
    (settleStaleStep gs date st i).wars.get? j = some w := by
  by_cases hij : i = j
  · subst hij
    rw [settleStaleStep_eq_of_get gs date st i w hget]
    have hbe : (w.outcome == WarOutcome.in_progress) = false := by
      simpa using hterm
    rw [if_neg (by simp [hbe])]
    exact hget
  · rw [settleStaleStep_get_other gs date st i j hij]
    exact hget

lemma settleStaleStep_fields (gs : Gamestate) (date : Int) (st : Store) (i : Nat) :
    (settleStaleStep gs date st i).warParticipants = st.warParticipants
    ∧ ∃ suf, (settleStaleStep gs date st i).events = st.events ++ suf := by
  cases hgi : st.wars.get? i with
  | none =>
    rw [settleStaleStep_eq_of_none gs date st i hgi]
    exact ⟨rfl, [], by simp⟩
  | some wi =>
    rw [settleStaleStep_eq_of_get gs date st i wi hgi]
    by_cases hcond : (wi.outcome == WarOutcome.in_progress
        && decide (wi.end_date_days < date - 5 * 360)) = true
    · rw [if_pos hcond]
      have hpf := history_add_peace_events_fields gs
        { st with wars := st.wars.set i { wi with outcome := .unknown } } i
      exact ⟨hpf.2.1, hpf.2.2⟩
    · rw [if_neg hcond]
      exact ⟨rfl, [], by simp⟩

lemma staleFold_term_preserved (gs : Gamestate) (date : Int) :
    ∀ (idxs : List Nat) (st : Store) (j : Nat) (w : War),
      st.wars.get? j = some w → ¬ w.outcome = .in_progress →
      (idxs.foldl (settleStaleStep gs date) st).wars.get? j = some w := by
  intro idxs
  induction idxs with
  | nil => intro st j w h _; exact h
  | cons i is ih =>
    intro st j w h hterm
    exact ih _ j w (settleStaleStep_term_preserved gs date st i j w h hterm) hterm

lemma staleFold_mem_events (gs : Gamestate) (date : Int) (e : HistoricalEvent) :
    ∀ (idxs : List Nat) (st : Store), e ∈ st.events →
      e ∈ ((idxs.foldl (settleStaleStep gs date) st).events) := by
  intro idxs st hmem
  refine foldl_inv (settleStaleStep gs date) (fun s => e ∈ s.events) ?_ idxs st hmem
  intro s b hI
  obtain ⟨-, suf, hsuf⟩ := settleStaleStep_fields gs date s b
  rw [hsuf]
  exact List.mem_append_left _ hI

lemma staleFold_participants (gs : Gamestate) (date : Int) :
    ∀ (idxs : List Nat) (st : Store),
      (idxs.foldl (settleStaleStep gs date) st).warParticipants = st.warParticipants := by
  intro idxs st
  refine foldl_inv (settleStaleStep gs date) (fun s => s.warParticipants = st.warParticipants)
    ?_ idxs st rfl
  intro s b hI
  rw [(settleStaleStep_fields gs date s b).1]
  exact hI

lemma unknown_ne_in_progress : ¬ (WarOutcome.unknown = WarOutcome.in_progress) := by
  intro h
  exact WarOutcome.noConfusion h

/-- The stale-war pass settles each listed war that is still in progress and
stale: `unknown` outcome, one peace event per participant. -/
lemma staleFold_processes (gs : Gamestate) (date : Int) :
    ∀ (idxs : List Nat) (st : Store) (i : Nat) (w : War),
      i ∈ idxs → st.wars.get? i = some w → w.outcome = .in_progress →
      w.end_date_days < date - 5 * 360 →
      (idxs.foldl (settleStaleStep gs date) st).wars.get? i =
        some { w with outcome := .unknown }
      ∧ ∀ wp ∈ st.warParticipants, wp.war = i →
          ∃ e ∈ (idxs.foldl (settleStaleStep gs date) st).events,
            e.event_type = .peace ∧ e.country = some wp.country ∧ e.war = some i := by
  intro idxs
  induction idxs with
  | nil => intro st i w hmem; simp at hmem
  | cons k ks ih =>
    intro st i w hmem hget hip hstale
    by_cases hki : k = i
    · subst hki
      have hstep : settleStaleStep gs date st k =
          history_add_peace_events gs
            { st with wars := st.wars.set k { w with outcome := .unknown } } k := by
        rw [settleStaleStep_eq_of_get gs date st k w hget]
        rw [if_pos (by simp [hip]; omega)]
      have hlen : k < st.wars.length := get?_lt_length _ _ _ hget
      have hrow : (settleStaleStep gs date st k).wars.get? k =
          some { w with outcome := .unknown } := by
        rw [hstep]
        rw [(history_add_peace_events_fields gs _ k).1]
        exact get?_set_self _ _ _ (by simpa using hlen)
      constructor
      · rw [List.foldl_cons]
        exact staleFold_term_preserved gs date ks _ k _ hrow
          (by intro h; exact unknown_ne_in_progress h)
      · intro wp hwp hwar
        have hcov := history_add_peace_events_covers gs
          { st with wars := st.wars.set k { w with outcome := .unknown } } k
          { w with outcome := .unknown }
          (get?_set_self _ _ _ (by simpa using hlen)) wp (by simpa using hwp) hwar
        obtain ⟨e, hmemE, hprops⟩ := hcov
        rw [List.foldl_cons]
        refine ⟨e, ?_, hprops⟩
        rw [← hstep] at hmemE
        exact staleFold_mem_events gs date e ks _ hmemE
    · have hki' : ¬ (k = i) := hki
      have hrow : (settleStaleStep gs date st k).wars.get? i = some w := by
        rw [settleStaleStep_get_other gs date st k i hki']
        exact hget
      have hmem' : i ∈ ks := by
        rcases List.mem_cons.mp hmem with h | h
        · exact absurd h.symm hki'
        · exact h
      have := ih (settleStaleStep gs date st k) i w hmem' hrow hip hstale
      rw [List.foldl_cons]
      refine ⟨this.1, ?_⟩
      intro wp hwp hwar
      exact this.2 wp (by rw [(settleStaleStep_fields gs date st k).1]; exact hwp) hwar

lemma settleTruceStep_eq_war (gs : Gamestate) (st : Store) (tid : Int) (tr : TruceDict)
    (n : String) (i : Nat) (w : War)
    (hname : tr.name = some n) (htype : tr.truce_type = some "war")
    (hne : (n == "") = false) (hfind : findWarByName st.wars n = some (i, w)) :
    settleTruceStep gs st (tid, some tr) =
      (if (truceEndUpdated tr w).outcome == WarOutcome.in_progress then
        history_add_peace_events gs
          { st with
            wars := st.wars.set i
              ({ truceEndUpdated tr w with outcome := exhaustionOutcome (truceEndUpdated tr w) }) } i
      else { st with wars := st.wars.set i (truceEndUpdated tr w) }) := by
  obtain ⟨tn, tt, tsd⟩ := tr
  have hname' : tn = some n := hname
  have htype' : tt = some "war" := htype
  subst hname'
  subst htype'
  simp only [settleTruceStep, Option.getD, beq_self_eq_true, Bool.not_true, Bool.or_false,
    hne, Bool.false_eq_true, if_false]
  rw [hfind]

/-- C8, counterexample.  A war that is stale while still in progress, with
attacker exhaustion 0 and defender exhaustion 1: the claim assigns the outcome
by exhaustion comparison (here: attacker victory), but `_settle_finished_wars`
gives stale in-progress wars the fixed outcome `unknown`
(timeline.py:1434-1438). -/
def c8War : War :=
  { war_id_in_game := 1, start_date_days := 0, end_date_days := 100, name := "w",
    outcome := .in_progress, attacker_war_exhaustion := 0, defender_war_exhaustion := 1 }

def c8Participant : WarParticipant := { war := 0, country := 5, is_attacker := true }

def c8Store : Store :=
  { wars := [c8War], warParticipants := [c8Participant],
    countries := [{ country_id_in_game := 5 }] }

def c8Gs : Gamestate := { date := 2000 }

theorem settle_finished_wars_counterexample :
    exhaustionOutcome c8War = .attacker_victory
    ∧ (settle_finished_wars c8Gs 2000 c8Store).wars.map (fun w => w.outcome) =
        [.unknown] := by
  decide

/-- C8, amended.  When a war still in progress is resolved through a truce
record of type "war", its outcome is assigned by comparing the two sides'
accumulated war exhaustion — the side with strictly lower exhaustion wins,
equal exhaustion yields status quo — and a peace event is emitted for every
participant of the war.  A war that is stale (end day more than 1800 days old)
while still in progress is instead closed with the fixed outcome `unknown`
(no exhaustion comparison), likewise with a peace event per participant. -/
theorem settle_finished_wars_amended :
    (∀ (gs : Gamestate) (date : Int) (store : Store) (tid : Int) (tr : TruceDict)
        (n : String) (i : Nat) (w : War),
      gs.truce = [(tid, some tr)] → tr.name = some n → tr.truce_type = some "war" →
      n ≠ "" → findWarByName store.wars n = some (i, w) → w.outcome = .in_progress →
      (settle_finished_wars gs date store).wars.get? i =
        some { truceEndUpdated tr w with outcome := exhaustionOutcome (truceEndUpdated tr w) }
      ∧ ∀ wp ∈ store.warParticipants, wp.war = i →
          ∃ e ∈ (settle_finished_wars gs date store).events,
            e.event_type = .peace ∧ e.country = some wp.country ∧ e.war = some i)
    ∧ (∀ (gs : Gamestate) (date : Int) (store : Store) (i : Nat) (w : War),
      gs.truce = [] → store.wars.get? i = some w → w.outcome = .in_progress →
      w.end_date_days < date - 5 * 360 →
      (settle_finished_wars gs date store).wars.get? i = some { w with outcome := .unknown }
      ∧ ∀ wp ∈ store.warParticipants, wp.war = i →
          ∃ e ∈ (settle_finished_wars gs date store).events,
            e.event_type = .peace ∧ e.country = some wp.country ∧ e.war = some i) := by
  constructor
  · intro gs date store tid tr n i w htr hname htype hne hfind hip
    have hlen : i < store.wars.length :=
      get?_lt_length _ _ _ (bestIdx_get? _ _ store.wars i w hfind).1
    have hw1 : (truceEndUpdated tr w).outcome = .in_progress := by
      unfold truceEndUpdated
      cases tr.start_date <;> simpa using hip
    have hne' : (n == "") = false := by
      cases hn : (n == "") with
      | false => rfl
      | true => exact absurd (by simpa using hn) hne
    have hstep : settleTruceStep gs store (tid, some tr) =
        history_add_peace_events gs
          { store with
            wars := store.wars.set i
              ({ truceEndUpdated tr w with outcome := exhaustionOutcome (truceEndUpdated tr w) }) } i := by
      rw [settleTruceStep_eq_war gs store tid tr n i w hname htype hne' hfind]
      rw [if_pos (by simp [hw1])]
    have htrfold : gs.truce.foldl (settleTruceStep gs) store =
        history_add_peace_events gs
          { store with
            wars := store.wars.set i
              ({ truceEndUpdated tr w with outcome := exhaustionOutcome (truceEndUpdated tr w) }) } i := by
      rw [htr]
      simpa using hstep
    have hrow1 : (gs.truce.foldl (settleTruceStep gs) store).wars.get? i =
        some { truceEndUpdated tr w with outcome := exhaustionOutcome (truceEndUpdated tr w) } := by
      rw [htrfold]
      rw [(history_add_peace_events_fields gs _ i).1]
      exact get?_set_self _ _ _ (by simpa using hlen)
    constructor
    · show ((List.range _).foldl (settleStaleStep gs date) _).wars.get? i = _
      exact staleFold_term_preserved gs date _ _ i _ hrow1
        (fun h => exhaustionOutcome_ne_in_progress (truceEndUpdated tr w) h)
    · intro wp hwp hwar
      have hcov := history_add_peace_events_covers gs
        { store with
          wars := store.wars.set i
            ({ truceEndUpdated tr w with outcome := exhaustionOutcome (truceEndUpdated tr w) }) } i
        { truceEndUpdated tr w with outcome := exhaustionOutcome (truceEndUpdated tr w) }
        (get?_set_self _ _ _ (by simpa using hlen)) wp (by simpa using hwp) hwar
      obtain ⟨e, hmemE, hprops⟩ := hcov
      refine ⟨e, ?_, hprops⟩
      show e ∈ ((List.range _).foldl (settleStaleStep gs date) _).events
      apply staleFold_mem_events
      rw [htrfold]
      exact hmemE
  · intro gs date store i w htr hget hip hstale
    have hfold : gs.truce.foldl (settleTruceStep gs) store = store := by
      rw [htr]
      rfl
    have hmemr : i ∈ List.range store.wars.length :=
      List.mem_range.mpr (get?_lt_length _ _ _ hget)
    have hmain := staleFold_processes gs date (List.range store.wars.length) store i w
      hmemr hget hip hstale
    constructor
    · show ((List.range _).foldl (settleStaleStep gs date) _).wars.get? i = _
      rw [hfold]
      exact hmain.1
    · intro wp hwp hwar
      have := hmain.2 wp hwp hwar
      show ∃ e ∈ ((List.range _).foldl (settleStaleStep gs date) _).events, _
      rw [hfold]
      exact this

def c8TruceGs : Gamestate :=
  { date := 200,
    truce := [(0, some { name := some "w", truce_type := some "war", start_date := some 190 })] }

def c8Truce : TruceDict := { name := some "w", truce_type := some "war", start_date := some 190 }

/-- Witness for the amended C8 theorem at a concrete store: a truce settles the
in-progress war (attacker exhaustion 0 < defender 1 ⇒ attacker victory, end day
from the truce), and the sole participant receives a peace event. -/
theorem settle_finished_wars_amended_witness :
    ((settle_finished_wars c8TruceGs 200 c8Store).wars.get? 0 =
      some { truceEndUpdated c8Truce c8War with
        outcome := exhaustionOutcome (truceEndUpdated c8Truce c8War) }
    ∧ ∀ wp ∈ c8Store.warParticipants, wp.war = 0 →
        ∃ e ∈ (settle_finished_wars c8TruceGs 200 c8Store).events,
          e.event_type = .peace ∧ e.country = some wp.country ∧ e.war = some 0) := by
  exact settle_finished_wars_amended.1 c8TruceGs 200 c8Store 0 c8Truce "w" 0 c8War
    rfl rfl rfl (by decide) (by decide) rfl

/-! ### Galaxy (`_extract_galaxy_data`, `_add_single_system`, timeline.py:114-160) -/

/-- One hyperlane entry of `_add_single_system` (timeline.py:146-159): a target
equal to the system itself is skipped ("This can happen in Stellaris 2.1"); a
target whose system row does not exist yet is skipped (the lane will be created
when the neighbor system is added).  `one_or_none` on the neighbor query is
modelled as first match — the modelled operations create at most one row per
in-game system id. -/
def addHyperlane (systemId : Int) (st : Store) (hl : HyperlaneDict) : Store :=
  match hl.hlto with
  | none => st
  | some t =>
    if t == systemId then st
    else
      match st.systems.find? (fun sy => sy.system_id_in_game == t) with
      | none => st
      | some nb => { st with hyperlanes := st.hyperlanes ++
          [{ system_one := systemId, system_two := nb.system_id_in_game }] }

/-- `_add_single_system`.  A missing system id is only logged; an id mapped to a
non-dict value crashes on `system_data.get(...)`. -/
def add_single_system (gs : Gamestate) (date : Int) (store : Store) (systemId : Int)
    (countryModel : Option Country) : Except String Store :=
  match lookupById gs.galactic_object systemId with
  | none => .ok store
  | some none => .error "AttributeError: galactic_object entry is not a dict"
  | some (some sd) =>
    let sys : StarSystem :=
      { system_id_in_game := systemId, name := sd.name,
        star_class := sd.star_class.getD "Unknown",
        coordinate_x := sd.coordinate_x, coordinate_y := sd.coordinate_y }
    let st1 := { store with systems := store.systems ++ [sys] }
    let st2 := match countryModel with
      | some c =>
        let ev : HistoricalEvent :=
          { event_type := .discovered_new_system,
            system := some systemId, country := some c.country_id_in_game,
            start_date_days := date, end_date_days := some date,
            event_is_known_to_player := true }
        { st1 with events := st1.events ++ [ev] }
      | none => st1
    .ok (sd.hyperlane.foldl (addHyperlane systemId) st2)

def extract_galaxy_data (gs : Gamestate) (date : Int) (store : Store) : Except String Store :=
  gs.galactic_object.foldlM (fun st entry => add_single_system gs date st entry.1 none) store

/-! ### Player trade agreements (`_extract_player_trade_agreements`, timeline.py:787-822) -/

def tradeSideCountry (o : Option TradeSide) : Int :=
  match o with
  | none => -1
  | some t => t.country.getD (-1)

def tradeSideField (o : Option TradeSide) (f : TradeSide → Option String) : Option String :=
  match o with
  | none => none
  | some t => f t

def tradeSideCountryStrict (o : Option TradeSide) : Except String Int :=
  match o with
  | none => .error "KeyError: country"
  | some t =>
    match t.country with
    | some c => .ok c
    | none => .error "KeyError: country"

/-- The research-agreement and sensor-link country sets.  The two sides are
swapped so the player is always first; `second["country"]` is an unguarded
subscript (timeline.py:811, 813).  Sets are modelled as lists queried only by
membership. -/
def extract_player_trade_agreements (gs : Gamestate) (playerId : Int) :
    Except String (List Int × List Int) :=
  gs.trade_deal.foldlM (fun acc entry =>
    match entry.2 with
    | none => .ok acc
    | some td =>
      let fs := if tradeSideCountry td.first ≠ playerId then (td.second, td.first)
                else (td.first, td.second)
      if tradeSideCountry fs.1 ≠ playerId then .ok acc
      else do
        let acc ←
          if tradeSideField fs.2 (fun t => t.research_agreement) == some "yes" then do
            let c ← tradeSideCountryStrict fs.2
            pure (acc.1 ++ [c], acc.2)
          else pure acc
        if tradeSideField fs.2 (fun t => t.sensor_link) == some "yes" then do
          let c ← tradeSideCountryStrict fs.2
          pure (acc.1, acc.2 ++ [c])
        else pure acc) (([], []) : List Int × List Int)

/-! ### Country data (`_extract_country_data`, `_extract_ai_attitude_towards_player`,
`_extract_country_economy`, `_initialize_system_and_planet_ownership_dicts`) -/

/-- Modelled from the spec: the named members of the `models.Attitude` enum
other than `unknown` and `is_player` (models.py is not under src/; the claims
only need `Attitude.__members__.get(name, Attitude.unknown)` to be a pure
function of the name). -/
def attitudeMembers : List String :=
  ["neutral", "wary", "receptive", "cordial", "friendly", "protective", "angry",
   "arrogant", "belligerent", "dismissive", "disloyal", "hostile", "imperious",
   "loyal", "overlord", "rebellious", "threatened"]

/-- `models.Attitude.__members__.get(name, Attitude.unknown)`; the member
`unknown` itself is `.unknown`. -/
def attitudeLookup (s : String) : Attitude :=
  if s ∈ attitudeMembers then .named s else .unknown

/-- The inner loop of `_extract_ai_attitude_towards_player`: the first dict
attitude entry towards the player; its missing `attitude` key is an unguarded
subscript (timeline.py:781). -/
def findAttitudeName : List (Option AttitudeEntry) → Int → Except String String
  | [], _ => .ok "unknown"
  | none :: rest, pid => findAttitudeName rest pid
  | some a :: rest, pid =>
    if a.country == some pid then
      match a.attitude with
      | some s => .ok s
      | none => .error "KeyError: attitude"
    else findAttitudeName rest pid

/-- `_extract_ai_attitude_towards_player` (timeline.py:772-784).  When the `ai`
value is not a dict the enum lookup is skipped entirely and the raw string
"unknown" is returned (modelled as `.named "unknown"` vs the enum member
`.unknown`). -/
def extract_ai_attitude_towards_player (playerId : Int) (cd : CountryDict) :
    Except String Attitude :=
  match cd.ai with
  | none => .ok (.named "unknown")
  | some ai => do
    let name ← findAttitudeName ai.attitude playerId
    pure (attitudeLookup name)

/-- The per-country controlled-system set from
`_initialize_system_and_planet_ownership_dicts` (timeline.py:290-313): the
deduplicated union of the systems of the country's sectors (`None` entries and
non-dict sectors skipped). -/
def countryControlledSystems (gs : Gamestate) (cd : CountryDict) : List Int :=
  dedupInts (cd.owned_sectors.foldl (fun acc sector_id =>
    match lookupById gs.sectors sector_id with
    | some (some sec) => acc ++ sec.systems.filterMap id
    | _ => acc) [])

/-- `_extract_country_data` (timeline.py:520-569).  The resource net values are
initialised to zero and accumulated by `_extract_country_economy`;
`exploration_progress = len(country_dict.get("surveyed", 0))` crashes when the
`surveyed` key is absent (`len(0)`). -/
def compute_country_data (gs : Gamestate) (date : Int) (playerId : Int)
    (researchAgreements sensorLinks : List Int) (cid : Int) (cd : CountryDict)
    (flags : DiploFlags) : Except String CountryData :=
  match (if cid == playerId then Except.ok Attitude.is_player
         else extract_ai_attitude_towards_player playerId cd) with
  | .error e => .error e
  | .ok att =>
  match cd.surveyed with
  | none => .error "TypeError: object of type int has no len"
  | some surveyedList =>
  .ok
    { country := cid, date := date,
      military_power := cd.military_power, tech_power := cd.tech_power,
      fleet_size := cd.fleet_size, empire_size := cd.empire_size,
      empire_cohesion := cd.empire_cohesion,
      tech_count := (match cd.tech_status with
        | some t => (t.technology.length : Int)
        | none => 0),
      exploration_progress := (surveyedList.length : Int),
      owned_planets := (cd.owned_planets.length : Int),
      controlled_systems := ((countryControlledSystems gs cd).length : Int),
      victory_rank := cd.victory_rank, victory_score := cd.victory_score,
      economy_power := cd.economy_power,
      has_research_agreement_with_player := cid == playerId || decide (cid ∈ researchAgreements),
      has_sensor_link_with_player := cid == playerId || decide (cid ∈ sensorLinks),
      attitude_towards_player := att,
      net_energy := 0, net_minerals := 0, net_alloys := 0, net_consumer_goods := 0,
      net_food := 0, net_unity := 0, net_influence := 0, net_physics_research := 0,
      net_society_research := 0, net_engineering_research := 0,
      has_rivalry_with_player := flags.has_rivalry_with_player,
      has_defensive_pact_with_player := flags.has_defensive_pact_with_player,
      has_federation_with_player := flags.has_federation_with_player,
      has_non_aggression_pact_with_player := flags.has_non_aggression_pact_with_player,
      has_closed_borders_with_player := flags.has_closed_borders_with_player,
      has_communications_with_player := flags.has_communications_with_player,
      has_migration_treaty_with_player := flags.has_migration_treaty_with_player,
      has_commercial_pact_with_player := flags.has_commercial_pact_with_player,
      is_player_neighbor := flags.is_player_neighbor }

/-- One budget line of `_extract_country_economy` (timeline.py:574-599): "none"
entries and falsy values are skipped, anything else is accumulated into the net
resource sums. -/
def economyStep (acc : CountryData) (item : String × Option BudgetValues) : CountryData :=
  if item.1 == "none" then acc
  else
    match item.2 with
    | none => acc
    | some v =>
      { acc with
        net_energy := acc.net_energy + v.energy,
        net_minerals := acc.net_minerals + v.minerals,
        net_alloys := acc.net_alloys + v.alloys,
        net_consumer_goods := acc.net_consumer_goods + v.consumer_goods,
        net_food := acc.net_food + v.food,
        net_unity := acc.net_unity + v.unity,
        net_influence := acc.net_influence + v.influence,
        net_physics_research := acc.net_physics_research + v.physics_research,
        net_society_research := acc.net_society_research + v.society_research,
        net_engineering_research := acc.net_engineering_research + v.engineering_research }

/-- `_extract_country_economy` (timeline.py:571-625): accumulate the per-resource
net sums over every named budget line.  The per-line BudgetItem rows persisted
for the player country are outside the claims under study and are not modelled. -/
def extract_country_economy (cdData : CountryData) (cd : CountryDict) : CountryData :=
  cd.budget_balance.foldl economyStep cdData

/-! ### The per-country pass and `process_gamestate` (timeline.py:71-112, 162-223)

Modelled stages, in source order: Game creation with one-time galaxy extraction;
same-day snapshot replacement; player trade agreements; the per-country loop
(Country upsert, diplomacy, first-contact day, government, CountryData, economy);
war extraction and settlement.  Stages outside every claim under study (species,
leaders, factions, planet/sector/ruler/tech events, population aggregation) are
not modelled; `_extract_system_ownership` sits behind the
`extract_system_ownership` config flag and the model corresponds to that flag
being off. -/

def countryTypeSupported (ctype : Option String) : Bool :=
  match ctype with
  | some t => decide (t ∈ SUPPORTED_COUNTRY_TYPES)
  | none => false

def setFirstContact (countries : List Country) (cid : Int) (date : Int) : List Country :=
  countries.map (fun c =>
    if c.country_id_in_game == cid then { c with first_player_contact_date := some date } else c)

/-- The Country upsert at the top of the country loop (timeline.py:176-190):
`one_or_none` on the country row, modelled as first match; a new row for the
player country gets `first_player_contact_date = 0`. -/
def upsertCountry (playerId : Int) (st : Store) (cid : Int) (cd : CountryDict) :
    Store × Country :=
  match findCountry st.countries cid with
  | some c => (st, c)
  | none =>
    let c : Country :=
      { country_id_in_game := cid,
        is_player := cid == playerId,
        country_type := cd.ctype,
        country_name := cd.name.getD "no name",
        first_player_contact_date := if cid == playerId then some 0 else none }
    ({ st with countries := st.countries ++ [c] }, c)

/-- The first-contact update (timeline.py:197-199): a country whose contact date
is still unset and whose diplomacy flags report communications with the player
gets today as its first contact day (both on the row and on the in-loop model). -/
def applyFirstContact (date : Int) (playerId : Int) (cd : CountryDict) (st : Store)
    (cm : Country) : Store × Country :=
  if cm.first_player_contact_date == none
      && (diploFlagsOf playerId cd).has_communications_with_player then
    ({ st with countries := setFirstContact st.countries cm.country_id_in_game date },
     { cm with first_player_contact_date := some date })
  else (st, cm)

/-- The modelled stages running for a supported country (timeline.py:196-204):
diplomacy, first contact, government, CountryData, economy. -/
def processSupportedCountry (onlyReadPlayerHistory : Bool) (gs : Gamestate) (date : Int)
    (playerId : Int) (researchAgreements sensorLinks : List Int) (st : Store) (cid : Int)
    (cd : CountryDict) (cm : Country) : Except String Store := do
  let pd ← process_diplomacy onlyReadPlayerHistory gs date playerId st cm cd
  let ac := applyFirstContact date playerId cd pd.1 cm
  let st4 := extract_country_government date ac.1 ac.2 cd
  let row ← compute_country_data gs date playerId researchAgreements sensorLinks
    cid cd (diploFlagsOf playerId cd)
  pure { st4 with countryData := st4.countryData ++ [extract_country_economy row cd] }

/-- One entry of the `for country_id, country_data_dict in ...["country"].items()`
loop (timeline.py:172-217), restricted to the modelled stages; non-dict entries
are skipped, unsupported country types stop after the Country upsert. -/
def processCountryEntry (onlyReadPlayerHistory : Bool) (gs : Gamestate) (date : Int)
    (playerId : Int) (researchAgreements sensorLinks : List Int) (st : Store) :
    Int × Option CountryDict → Except String Store := fun entry =>
  match entry.2 with
  | none => .ok st
  | some cd =>
    let up := upsertCountry playerId st entry.1 cd
    if countryTypeSupported cd.ctype then
      processSupportedCountry onlyReadPlayerHistory gs date playerId researchAgreements
        sensorLinks up.1 entry.1 cd up.2
    else .ok up.1

/-- Modelled from the spec: `session.delete(game_states_by_date[date])`
(timeline.py:102).  models.py is not under src/; per the spec's atomicity
section, deleting a same-day `GameState` row cascades to the per-snapshot rows
that hang off it — the `CountryData` rows of that date.  Interval facts
(events, governments, wars) are keyed to the game, not the snapshot, and
survive. -/
def removeSnapshotForDay (store : Store) (date : Int) : Store :=
  { store with
    gameStates := store.gameStates.filter (fun g => g.date != date),
    countryData := store.countryData.filter (fun c => c.date != date) }

/-- Game-row creation (timeline.py:91-97): on first sight of the game, the
player country's name is read (an unguarded double subscript) and the one-time
galaxy extraction runs. -/
def ensureGameCreated (gs : Gamestate) (playerId : Int) (store : Store) :
    Except String Store :=
  if store.gameExists then pure store
  else
    match lookupById gs.country playerId with
    | some (some pcd) =>
      match pcd.name with
      | some _ => extract_galaxy_data gs gs.date { store with gameExists := true }
      | none => throw "KeyError: player country name"
    | some none => throw "TypeError: player country entry is not a dict"
    | none => throw "KeyError: player country missing"

/-- The same-day snapshot replacement (timeline.py:99-102). -/
def snapshotReplaced (store : Store) (date : Int) : Store :=
  if store.gameStates.any (fun g => g.date == date) then removeSnapshotForDay store date
  else store

/-- Replacement followed by creation of the new GameState row (timeline.py:163-166). -/
def withNewSnapshot (store : Store) (date : Int) : Store :=
  { snapshotReplaced store date with
    gameStates := (snapshotReplaced store date).gameStates ++ [{ date := date }] }

/-- The transactional body of `process_gamestate` (everything inside the `try`,
timeline.py:90-105): an `Except.error` models any exception reaching the
`except` clause. -/
def bodyE (onlyReadPlayerHistory : Bool) (playerId : Int) (gs : Gamestate) (store : Store) :
    Except String Store := do
  let st1 ← ensureGameCreated gs playerId store
  let st2 := withNewSnapshot st1 gs.date
  let agreements ← extract_player_trade_agreements gs playerId
  let st3 ← gs.country.foldlM
    (processCountryEntry onlyReadPlayerHistory gs gs.date playerId agreements.1 agreements.2) st2
  let st4 ← extract_wars gs gs.date st3
  pure (settle_finished_wars gs gs.date st4)

/-- The session block of `process_gamestate` (timeline.py:89-112): the body runs
inside a try/except whose handler calls `session.rollback()`, leaving the
persisted store as it was. -/
def applyBody (onlyReadPlayerHistory : Bool) (p : PlayerEntry) (gs : Gamestate)
    (store : Store) : Store :=
  match bodyE onlyReadPlayerHistory p.country gs store with
  | .ok st' => st'
  | .error _ => store

/-- `process_gamestate` (timeline.py:71-112): the ambiguous-player check happens
before the session opens. -/
def process_gamestate (onlyReadPlayerHistory : Bool) (gs : Gamestate) (store : Store) : Store :=
  if (dedupInts (gs.player.map (fun p => p.country))).length ≠ 1 then store
  else
    match gs.player with
    | [] => store
    | p :: _ => applyBody onlyReadPlayerHistory p gs store

/-! ### Per-stage shape lemmas

Every extraction stage touches only a few columns of the `Store`; the lemmas
below record each stage's result as a record update of its input.  The claim
theorems about `process_gamestate` are proved by composing them. -/

lemma exceptBind_ok {α β : Type} (a : α) (f : α → Except String β) :
    (Except.ok a >>= f) = f a := rfl

lemma exceptBind_error {α β : Type} (e : String) (f : α → Except String β) :
    ((Except.error e : Except String α) >>= f) = Except.error e := rfl

lemma exceptBind_shape {α β : Type} (x : Except String α) (f : α → Except String β) (b : β)
    (h : (x >>= f) = .ok b) : ∃ a, x = .ok a ∧ f a = .ok b := by
  cases x with
  | error e => rw [exceptBind_error] at h; exact Except.noConfusion h
  | ok a => rw [exceptBind_ok] at h; exact ⟨a, rfl, h⟩

lemma exceptMap_shape {α β : Type} (x : Except String α) (f : α → β) (b : β)
    (h : x.map f = .ok b) : ∃ a, x = .ok a ∧ f a = b := by
  cases x with
  | error e => exact Except.noConfusion h
  | ok a => exact ⟨a, rfl, Except.ok.inj h⟩

lemma foldlM_nil' {α β : Type} (f : α → β → Except String α) (a : α) :
    List.foldlM f a [] = .ok a := rfl

lemma foldlM_cons' {α β : Type} (f : α → β → Except String α) (a : α) (b : β) (l : List β) :
    List.foldlM f a (b :: l) = f a b >>= fun x => List.foldlM f x l := rfl

lemma foldlM_inv {α β : Type} (f : α → β → Except String α) (I : α → Prop)
    (hf : ∀ a b a', I a → f a b = .ok a' → I a') :
    ∀ (l : List β) (a a' : α), List.foldlM f a l = .ok a' → I a → I a' := by
  intro l
  induction l with
  | nil =>
    intro a a' h hI
    rw [foldlM_nil'] at h
    rw [← Except.ok.inj h]
    exact hI
  | cons b bs ih =>
    intro a a' h hI
    rw [foldlM_cons'] at h
    cases hb : f a b with
    | error e => rw [hb, exceptBind_error] at h; exact Except.noConfusion h
    | ok a1 =>
      rw [hb, exceptBind_ok] at h
      exact ih a1 a' h (hf a b a1 hI hb)

lemma peaceStep_shape (gs : Gamestate) (w : War) (warIdx : Nat) (st : Store)
    (wp : WarParticipant) :
    ∃ evs, peaceStep gs w warIdx st wp = { st with events := evs } := by
  unfold peaceStep
  by_cases h : (wp.war == warIdx) = true
  · rw [if_pos h]
    cases hfind : st.events.find? (fun e => e.event_type == .peace
        && e.country == some wp.country && e.war == some warIdx) with
    | none => exact ⟨st.events ++ [mkPeaceEvent gs st w warIdx wp], rfl⟩
    | some e => exact ⟨st.events, rfl⟩
  · rw [if_neg h]
    exact ⟨st.events, rfl⟩

lemma history_add_peace_events_shape (gs : Gamestate) (store : Store) (warIdx : Nat) :
    ∃ evs, history_add_peace_events gs store warIdx = { store with events := evs } := by
  unfold history_add_peace_events
  cases hget : store.wars.get? warIdx with
  | none => exact ⟨store.events, rfl⟩
  | some w =>
    refine foldl_inv (peaceStep gs w warIdx)
      (fun st => ∃ evs, st = { store with events := evs }) ?_ store.warParticipants store
      ⟨store.events, rfl⟩
    intro st b hI
    obtain ⟨evs, hst⟩ := hI
    obtain ⟨evs2, hstep⟩ := peaceStep_shape gs w warIdx st b
    subst hst
    exact ⟨evs2, hstep⟩

lemma settleTruceStep_shape (gs : Gamestate) (st : Store) (entry : Int × Option TruceDict) :
    ∃ ws evs, settleTruceStep gs st entry = { st with wars := ws, events := evs } := by
  unfold settleTruceStep
  split
  · exact ⟨st.wars, st.events, rfl⟩
  · split
    · exact ⟨st.wars, st.events, rfl⟩
    · split
      · exact ⟨st.wars, st.events, rfl⟩
      · split
        · exact ⟨st.wars, st.events, rfl⟩
        · split
          · obtain ⟨evs, hh⟩ := history_add_peace_events_shape gs _ _
            exact ⟨_, _, hh⟩
          · exact ⟨_, st.events, rfl⟩

lemma settleStaleStep_shape (gs : Gamestate) (date : Int) (st : Store) (i : Nat) :
    ∃ ws evs, settleStaleStep gs date st i = { st with wars := ws, events := evs } := by
  unfold settleStaleStep
  split
  · exact ⟨st.wars, st.events, rfl⟩
  · split
    · obtain ⟨evs, hh⟩ := history_add_peace_events_shape gs _ _
      exact ⟨_, _, hh⟩
    · exact ⟨st.wars, st.events, rfl⟩

lemma settle_finished_wars_shape (gs : Gamestate) (date : Int) (store : Store) :
    ∃ ws evs, settle_finished_wars gs date store = { store with wars := ws, events := evs } := by
  have h1 : ∃ ws evs, gs.truce.foldl (settleTruceStep gs) store =
      { store with wars := ws, events := evs } := by
    refine foldl_inv (settleTruceStep gs)
      (fun st => ∃ ws evs, st = { store with wars := ws, events := evs }) ?_ gs.truce store
      ⟨store.wars, store.events, rfl⟩
    intro st b hI
    obtain ⟨ws, evs, hst⟩ := hI
    obtain ⟨ws2, evs2, hstep⟩ := settleTruceStep_shape gs st b
    subst hst
    exact ⟨ws2, evs2, hstep⟩
  obtain ⟨ws1, evs1, hfold⟩ := h1
  have h2 := foldl_inv (settleStaleStep gs date)
    (fun st => ∃ ws evs, st = { store with wars := ws, events := evs }) ?_
    (List.range (gs.truce.foldl (settleTruceStep gs) store).wars.length)
    (gs.truce.foldl (settleTruceStep gs) store) ⟨ws1, evs1, hfold⟩
  · exact h2
  · intro st b hI
    obtain ⟨ws, evs, hst⟩ := hI
    obtain ⟨ws2, evs2, hstep⟩ := settleStaleStep_shape gs date st b
    subst hst
    exact ⟨ws2, evs2, hstep⟩

lemma warParticipantStep_shape (gs : Gamestate) (date : Int) (warIdx : Nat) (wd : WarDict)
    (st : Store) (p : WarPartyInfo) (st' : Store)
    (h : warParticipantStep gs date warIdx wd st p = .ok st') :
    ∃ wps evs, st' = { st with warParticipants := wps, events := evs } := by
  unfold warParticipantStep at h
  split at h
  · exact Except.noConfusion h
  · split at h
    · split at h
      · split at h
        · exact ⟨st.warParticipants, st.events, (Except.ok.inj h).symm⟩
        · exact Except.noConfusion h
      · exact Except.noConfusion h
    · split at h
      · exact ⟨_, _, (Except.ok.inj h).symm⟩
      · split at h
        · exact ⟨st.warParticipants, st.events, (Except.ok.inj h).symm⟩
        · exact ⟨_, st.events, (Except.ok.inj h).symm⟩

lemma upsertWarParticipants_shape (gs : Gamestate) (date : Int) (warIdx : Nat) (wd : WarDict)
    (store st' : Store) (h : upsertWarParticipants gs date warIdx wd store = .ok st') :
    ∃ wps evs, st' = { store with warParticipants := wps, events := evs } := by
  refine foldlM_inv (warParticipantStep gs date warIdx wd)
    (fun st => ∃ wps evs, st = { store with warParticipants := wps, events := evs }) ?_
    (wd.attackers ++ wd.defenders) store st' h ⟨store.warParticipants, store.events, rfl⟩
  intro a b a' hI hstep
  obtain ⟨wps, evs, ha⟩ := hI
  subst ha
  obtain ⟨wps2, evs2, ha'⟩ := warParticipantStep_shape gs date warIdx wd _ b a' hstep
  exact ⟨wps2, evs2, ha'⟩

lemma extractWarsStep_shape (gs : Gamestate) (date : Int) (st : Store)
    (entry : Int × Option WarDict) (st' : Store)
    (h : extractWarsStep gs date st entry = .ok st') :
    ∃ ws wps evs, st' = { st with wars := ws, warParticipants := wps, events := evs } := by
  unfold extractWarsStep at h
  split at h
  · exact ⟨st.wars, st.warParticipants, st.events, (Except.ok.inj h).symm⟩
  · split at h
    · obtain ⟨wps, evs, hshape⟩ := upsertWarParticipants_shape gs date _ _ _ _ h
      exact ⟨_, wps, evs, hshape⟩
    · split at h
      · obtain ⟨wps, evs, hshape⟩ := upsertWarParticipants_shape gs date _ _ _ _ h
        exact ⟨_, wps, evs, hshape⟩
      · split at h
        · split at h
          · exact Except.noConfusion h
          · obtain ⟨wps, evs, hshape⟩ := upsertWarParticipants_shape gs date _ _ _ _ h
            exact ⟨_, wps, evs, hshape⟩
        · split at h
          · split at h
            · exact Except.noConfusion h
            · obtain ⟨wps, evs, hshape⟩ := upsertWarParticipants_shape gs date _ _ _ _ h
              exact ⟨_, wps, evs, hshape⟩
          · split at h
            · exact ⟨st.wars, st.warParticipants, st.events, (Except.ok.inj h).symm⟩
            · obtain ⟨wps, evs, hshape⟩ := upsertWarParticipants_shape gs date _ _ _ _ h
              exact ⟨_, wps, evs, hshape⟩

lemma extract_wars_shape (gs : Gamestate) (date : Int) (store st' : Store)
    (h : extract_wars gs date store = .ok st') :
    ∃ ws wps evs, st' = { store with wars := ws, warParticipants := wps, events := evs } := by
  unfold extract_wars at h
  split at h
  · exact ⟨store.wars, store.warParticipants, store.events, (Except.ok.inj h).symm⟩
  · refine foldlM_inv _ (fun st => ∃ ws wps evs,
      st = { store with wars := ws, warParticipants := wps, events := evs }) ?_
      gs.war store st' h ⟨store.wars, store.warParticipants, store.events, rfl⟩
    intro a b a' hI hstep
    obtain ⟨ws, wps, evs, ha⟩ := hI
    subst ha
    obtain ⟨ws2, wps2, evs2, ha'⟩ := extractWarsStep_shape gs date _ b a' hstep
    exact ⟨ws2, wps2, evs2, ha'⟩

lemma history_add_or_update_diplomatic_events_shape (gs : Gamestate) (date : Int)
    (store : Store) (cm : Country) (cd : CountryDict) (rel : Relation) (st' : Store)
    (h : history_add_or_update_diplomatic_events gs date store cm cd rel = .ok st') :
    ∃ evs, st' = { store with events := evs } := by
  unfold history_add_or_update_diplomatic_events at h
  split at h
  · exact ⟨store.events, (Except.ok.inj h).symm⟩
  · split at h
    · exact ⟨store.events, (Except.ok.inj h).symm⟩
    · split at h
      · exact Except.noConfusion h
      · exact Except.noConfusion h
      · obtain ⟨evs, hfold, hpure⟩ := exceptBind_shape _ _ _ h
        exact ⟨evs, (Except.ok.inj hpure).symm⟩

lemma process_diplomacy_shape (o : Bool) (gs : Gamestate) (date : Int) (pid : Int)
    (store : Store) (cm : Country) (cd : CountryDict) (r : Store × DiploFlags)
    (h : process_diplomacy o gs date pid store cm cd = .ok r) :
    ∃ evs, r.1 = { store with events := evs } := by
  unfold process_diplomacy at h
  obtain ⟨st1, hst1, hfr⟩ := exceptMap_shape _ _ _ h
  have hr1 : r.1 = st1 := by rw [← hfr]
  split at hst1
  · exact ⟨store.events, by rw [hr1, ← Except.ok.inj hst1]⟩
  · split at hst1
    · exact ⟨store.events, by rw [hr1, ← Except.ok.inj hst1]⟩
    · split at hst1
      · obtain ⟨evs, hsh⟩ :=
          history_add_or_update_diplomatic_events_shape gs date store cm cd _ st1 hst1
        exact ⟨evs, by rw [hr1]; exact hsh⟩
      · exact ⟨store.events, by rw [hr1, ← Except.ok.inj hst1]⟩

lemma extract_country_government_shape (date : Int) (store : Store) (cm : Country)
    (cd : CountryDict) :
    ∃ gvs evs, extract_country_government date store cm cd =
      { store with governments := gvs, events := evs } := by
  unfold extract_country_government
  split
  · exact ⟨_, store.events, rfl⟩
  · split
    · exact ⟨_, store.events, rfl⟩
    · exact ⟨_, _, rfl⟩

lemma upsertCountry_shape (pid : Int) (st : Store) (cid : Int) (cd : CountryDict) :
    ∃ cs, (upsertCountry pid st cid cd).1 = { st with countries := cs } := by
  cases hf : findCountry st.countries cid with
  | some c => exact ⟨st.countries, by unfold upsertCountry; rw [hf]⟩
  | none => exact ⟨_, by unfold upsertCountry; rw [hf]⟩

lemma applyFirstContact_shape (date : Int) (pid : Int) (cd : CountryDict) (st : Store)
    (cm : Country) :
    ∃ cs, (applyFirstContact date pid cd st cm).1 = { st with countries := cs } := by
  unfold applyFirstContact
  by_cases hc : (cm.first_player_contact_date == none
      && (diploFlagsOf pid cd).has_communications_with_player) = true
  · rw [if_pos hc]
    exact ⟨_, rfl⟩
  · rw [if_neg hc]
    exact ⟨st.countries, rfl⟩

lemma foldl_inv' {α β : Type} (f : α → β → α) (I : α → Prop)
    (hf : ∀ a b, I a → I (f a b)) :
    ∀ (l : List β) (a : α), I a → I (l.foldl f a) := by
  intro l
  induction l with
  | nil => intro a h; exact h
  | cons b bs ih => intro a h; exact ih (f a b) (hf a b h)

/-- The CountryData row the country loop appends for one `country` entry: a
pure function of the snapshot tree (the `diplomacy_data` argument of
`_extract_country_data` is itself the pure `diploFlagsOf`), or `none` when the
entry is skipped (non-dict or unsupported type) or its extraction raises. -/
def expectedEntryCD (gs : Gamestate) (date : Int) (pid : Int) (ra sl : List Int) :
    Int × Option CountryDict → Option CountryData := fun entry =>
  match entry.2 with
  | none => none
  | some cd =>
    if countryTypeSupported cd.ctype then
      match compute_country_data gs date pid ra sl entry.1 cd (diploFlagsOf pid cd) with
      | .ok row => some (extract_country_economy row cd)
      | .error _ => none
    else none

/-- The full list of CountryData rows one successful pass appends, in country
order. -/
def expectedCDList (gs : Gamestate) (date : Int) (pid : Int) (ra sl : List Int) :
    List CountryData :=
  gs.country.filterMap (expectedEntryCD gs date pid ra sl)

lemma processSupportedCountry_fields (o : Bool) (gs : Gamestate) (date : Int) (pid : Int)
    (ra sl : List Int) (st : Store) (cid : Int) (cd : CountryDict) (cm : Country) (st' : Store)
    (h : processSupportedCountry o gs date pid ra sl st cid cd cm = .ok st') :
    ∃ row, compute_country_data gs date pid ra sl cid cd (diploFlagsOf pid cd) = .ok row
      ∧ st'.countryData = st.countryData ++ [extract_country_economy row cd]
      ∧ st'.gameStates = st.gameStates ∧ st'.hyperlanes = st.hyperlanes
      ∧ st'.systems = st.systems ∧ st'.wars = st.wars
      ∧ st'.warParticipants = st.warParticipants ∧ st'.gameExists = st.gameExists := by
  unfold processSupportedCountry at h
  obtain ⟨pd, hpd, h2⟩ := exceptBind_shape _ _ _ h
  obtain ⟨row, hrow, h3⟩ := exceptBind_shape _ _ _ h2
  obtain ⟨evs1, hpd1⟩ := process_diplomacy_shape o gs date pid st cm cd pd hpd
  obtain ⟨cs, hac⟩ := applyFirstContact_shape date pid cd pd.1 cm
  obtain ⟨gvs, evs2, hgov⟩ := extract_country_government_shape date
    (applyFirstContact date pid cd pd.1 cm).1 (applyFirstContact date pid cd pd.1 cm).2 cd
  have hst' : st' = { extract_country_government date (applyFirstContact date pid cd pd.1 cm).1
      (applyFirstContact date pid cd pd.1 cm).2 cd with
    countryData := (extract_country_government date (applyFirstContact date pid cd pd.1 cm).1
      (applyFirstContact date pid cd pd.1 cm).2 cd).countryData
      ++ [extract_country_economy row cd] } := (Except.ok.inj h3).symm
  rw [hgov, hac, hpd1] at hst'
  subst hst'
  exact ⟨row, hrow, rfl, rfl, rfl, rfl, rfl, rfl, rfl⟩

lemma processCountryEntry_fields (o : Bool) (gs : Gamestate) (date : Int) (pid : Int)
    (ra sl : List Int) (st : Store) (entry : Int × Option CountryDict) (st' : Store)
    (h : processCountryEntry o gs date pid ra sl st entry = .ok st') :
    st'.countryData = st.countryData ++ (expectedEntryCD gs date pid ra sl entry).toList
    ∧ st'.gameStates = st.gameStates ∧ st'.hyperlanes = st.hyperlanes
    ∧ st'.systems = st.systems ∧ st'.wars = st.wars
    ∧ st'.warParticipants = st.warParticipants ∧ st'.gameExists = st.gameExists := by
  obtain ⟨cid, ocd⟩ := entry
  cases ocd with
  | none =>
    have h' : Except.ok st = Except.ok st' := h
    obtain rfl := Except.ok.inj h'
    exact ⟨by simp [expectedEntryCD], rfl, rfl, rfl, rfl, rfl, rfl⟩
  | some cd =>
    have hh : (if countryTypeSupported cd.ctype then
        processSupportedCountry o gs date pid ra sl (upsertCountry pid st cid cd).1 cid cd
          (upsertCountry pid st cid cd).2
      else .ok (upsertCountry pid st cid cd).1) = .ok st' := h
    have hexpEq : expectedEntryCD gs date pid ra sl (cid, some cd) =
        (if countryTypeSupported cd.ctype then
          match compute_country_data gs date pid ra sl cid cd (diploFlagsOf pid cd) with
          | .ok row => some (extract_country_economy row cd)
          | .error _ => none
        else none) := rfl
    obtain ⟨cs, hup⟩ := upsertCountry_shape pid st cid cd
    by_cases hsup : countryTypeSupported cd.ctype = true
    · rw [if_pos hsup] at hh
      obtain ⟨row, hrow, hcd, hgs, hhl, hsys, hw, hwp, hge⟩ :=
        processSupportedCountry_fields o gs date pid ra sl _ cid cd _ st' hh
      have hexp : expectedEntryCD gs date pid ra sl (cid, some cd) =
          some (extract_country_economy row cd) := by
        rw [hexpEq, if_pos hsup, hrow]
      refine ⟨?_, ?_, ?_, ?_, ?_, ?_, ?_⟩
      · rw [hcd, hup, hexp]
        rfl
      · rw [hgs, hup]
      · rw [hhl, hup]
      · rw [hsys, hup]
      · rw [hw, hup]
      · rw [hwp, hup]
      · rw [hge, hup]
    · rw [if_neg hsup] at hh
      have hexp : expectedEntryCD gs date pid ra sl (cid, some cd) = none := by
        rw [hexpEq, if_neg hsup]
      obtain rfl := Except.ok.inj hh
      refine ⟨?_, ?_, ?_, ?_, ?_, ?_, ?_⟩
      · rw [hup, hexp]
        simp
      · rw [hup]
      · rw [hup]
      · rw [hup]
      · rw [hup]
      · rw [hup]
      · rw [hup]

lemma countryFold_fields (o : Bool) (gs : Gamestate) (date : Int) (pid : Int)
    (ra sl : List Int) :
    ∀ (l : List (Int × Option CountryDict)) (st st' : Store),
      List.foldlM (processCountryEntry o gs date pid ra sl) st l = .ok st' →
      st'.countryData = st.countryData ++ l.filterMap (expectedEntryCD gs date pid ra sl)
      ∧ st'.gameStates = st.gameStates ∧ st'.hyperlanes = st.hyperlanes
      ∧ st'.systems = st.systems ∧ st'.wars = st.wars
      ∧ st'.warParticipants = st.warParticipants ∧ st'.gameExists = st.gameExists := by
  intro l
  induction l with
  | nil =>
    intro st st' h
    rw [foldlM_nil'] at h
    obtain rfl := Except.ok.inj h
    exact ⟨by simp, rfl, rfl, rfl, rfl, rfl, rfl⟩
  | cons e es ih =>
    intro st st' h
    rw [foldlM_cons'] at h
    obtain ⟨st1, h1, h2⟩ := exceptBind_shape _ _ _ h
    obtain ⟨hcd1, hgs1, hhl1, hsys1, hw1, hwp1, hge1⟩ :=
      processCountryEntry_fields o gs date pid ra sl st e st1 h1
    obtain ⟨hcd2, hgs2, hhl2, hsys2, hw2, hwp2, hge2⟩ := ih st1 st' h2
    refine ⟨?_, hgs2.trans hgs1, hhl2.trans hhl1, hsys2.trans hsys1, hw2.trans hw1,
      hwp2.trans hwp1, hge2.trans hge1⟩
    rw [hcd2, hcd1, List.filterMap_cons]
    cases hfe : expectedEntryCD gs date pid ra sl e with
    | none => simp
    | some c => simp

lemma addHyperlane_shape (sid : Int) (st : Store) (hl : HyperlaneDict) :
    ∃ hls, addHyperlane sid st hl = { st with hyperlanes := hls } := by
  unfold addHyperlane
  split
  · exact ⟨st.hyperlanes, rfl⟩
  · split
    · exact ⟨st.hyperlanes, rfl⟩
    · split
      · exact ⟨st.hyperlanes, rfl⟩
      · exact ⟨_, rfl⟩

lemma add_single_system_shape (gs : Gamestate) (date : Int) (store : Store) (sid : Int)
    (cm : Option Country) (st' : Store)
    (h : add_single_system gs date store sid cm = .ok st') :
    ∃ sys hls evs, st' = { store with systems := sys, hyperlanes := hls, events := evs } := by
  unfold add_single_system at h
  split at h
  · exact ⟨store.systems, store.hyperlanes, store.events, (Except.ok.inj h).symm⟩
  · exact Except.noConfusion h
  · have h' : st' = _ := (Except.ok.inj h).symm
    subst h'
    refine foldl_inv' (addHyperlane sid)
      (fun s => ∃ sys hls evs, s = { store with systems := sys, hyperlanes := hls, events := evs })
      ?_ _ _ ?_
    · intro s b hI
      obtain ⟨sys, hls, evs, hs⟩ := hI
      subst hs
      obtain ⟨hls2, hstep⟩ := addHyperlane_shape sid _ b
      exact ⟨sys, hls2, evs, hstep⟩
    · cases cm with
      | none => exact ⟨_, store.hyperlanes, store.events, rfl⟩
      | some c => exact ⟨_, store.hyperlanes, _, rfl⟩

lemma extract_galaxy_data_shape (gs : Gamestate) (date : Int) (store st' : Store)
    (h : extract_galaxy_data gs date store = .ok st') :
    ∃ sys hls evs, st' = { store with systems := sys, hyperlanes := hls, events := evs } := by
  refine foldlM_inv _ (fun s => ∃ sys hls evs,
      s = { store with systems := sys, hyperlanes := hls, events := evs }) ?_
    gs.galactic_object store st' h ⟨store.systems, store.hyperlanes, store.events, rfl⟩
  intro a b a' hI hstep
  obtain ⟨sys, hls, evs, ha⟩ := hI
  subst ha
  obtain ⟨sys2, hls2, evs2, ha'⟩ := add_single_system_shape gs date _ b.1 none a' hstep
  exact ⟨sys2, hls2, evs2, ha'⟩

lemma ensureGameCreated_shape (gs : Gamestate) (pid : Int) (store st' : Store)
    (h : ensureGameCreated gs pid store = .ok st') :
    ∃ ex sys hls evs, st' =
      { store with
        gameExists := ex, systems := sys, hyperlanes := hls, events := evs } := by
  unfold ensureGameCreated at h
  split at h
  · exact ⟨store.gameExists, store.systems, store.hyperlanes, store.events,
      (Except.ok.inj h).symm⟩
  · split at h
    · split at h
      · obtain ⟨sys, hls, evs, hsh⟩ := extract_galaxy_data_shape gs gs.date _ st' h
        exact ⟨true, sys, hls, evs, hsh⟩
      · exact Except.noConfusion h
    · exact Except.noConfusion h
    · exact Except.noConfusion h

lemma filter_ne_then_eq {α : Type} (key : α → Int) (d : Int) (l : List α) :
    (l.filter (fun a => key a != d)).filter (fun a => key a == d) = [] := by
  induction l with
  | nil => rfl
  | cons x xs ih =>
    by_cases hx : (key x == d) = true
    · have hne : (key x != d) = false := by rw [bne, hx]; rfl
      rw [List.filter_cons, hne]
      simp only [Bool.false_eq_true, if_false]
      exact ih
    · have hxf : (key x == d) = false := by
        cases hkk : (key x == d) with
        | false => rfl
        | true => exact absurd hkk hx
      have hne : (key x != d) = true := by rw [bne, hxf]; rfl
      rw [List.filter_cons, hne, if_pos rfl, List.filter_cons, hxf]
      simp only [Bool.false_eq_true, if_false]
      exact ih

lemma filter_eq_nil_of_any_false {α : Type} (p : α → Bool) (l : List α)
    (h : l.any p = false) : l.filter p = [] := by
  induction l with
  | nil => rfl
  | cons x xs ih =>
    rw [List.any_cons] at h
    have hx : p x = false := by
      cases hpx : p x with
      | false => rfl
      | true => rw [hpx] at h; exact Bool.noConfusion h
    have hxs : xs.any p = false := by
      cases hany : xs.any p with
      | false => rfl
      | true => rw [hany, hx] at h; exact Bool.noConfusion h
    rw [List.filter_cons, hx]
    simp only [Bool.false_eq_true, if_false]
    exact ih hxs

lemma snapshotReplaced_gameStates_filter (store : Store) (d : Int) :
    (snapshotReplaced store d).gameStates.filter (fun g => g.date == d) = [] := by
  unfold snapshotReplaced
  by_cases hany : store.gameStates.any (fun g => g.date == d) = true
  · rw [if_pos hany]
    exact filter_ne_then_eq (fun g => g.date) d store.gameStates
  · rw [if_neg hany]
    have hf : store.gameStates.any (fun g => g.date == d) = false := by
      cases hh : store.gameStates.any (fun g => g.date == d) with
      | false => rfl
      | true => exact absurd hh hany
    exact filter_eq_nil_of_any_false _ _ hf

lemma withNewSnapshot_gameStates (store : Store) (d : Int) :
    (withNewSnapshot store d).gameStates.filter (fun g => g.date == d) = [{ date := d }] := by
  have h1 : (withNewSnapshot store d).gameStates =
      (snapshotReplaced store d).gameStates ++ [{ date := d }] := rfl
  rw [h1, List.filter_append, snapshotReplaced_gameStates_filter]
  simp

lemma withNewSnapshot_countryData (store : Store) (d : Int)
    (hclean : store.gameStates.any (fun g => g.date == d) = false →
      store.countryData.filter (fun c => c.date == d) = []) :
    (withNewSnapshot store d).countryData.filter (fun c => c.date == d) = [] := by
  have h1 : (withNewSnapshot store d).countryData = (snapshotReplaced store d).countryData := rfl
  rw [h1]
  unfold snapshotReplaced
  by_cases hany : store.gameStates.any (fun g => g.date == d) = true
  · rw [if_pos hany]
    exact filter_ne_then_eq (fun c => c.date) d store.countryData
  · rw [if_neg hany]
    apply hclean
    cases hh : store.gameStates.any (fun g => g.date == d) with
    | false => rfl
    | true => exact absurd hh hany

lemma economyStep_keeps (a : CountryData) (b : String × Option BudgetValues) :
    (economyStep a b).date = a.date ∧ (economyStep a b).country = a.country := by
  unfold economyStep
  split
  · exact ⟨rfl, rfl⟩
  · split
    · exact ⟨rfl, rfl⟩
    · exact ⟨rfl, rfl⟩

lemma extract_country_economy_keeps (r : CountryData) (cd : CountryDict) :
    (extract_country_economy r cd).date = r.date
    ∧ (extract_country_economy r cd).country = r.country := by
  refine foldl_inv' economyStep (fun a => a.date = r.date ∧ a.country = r.country) ?_
    cd.budget_balance r ⟨rfl, rfl⟩
  intro a b hI
  obtain ⟨h1, h2⟩ := economyStep_keeps a b
  exact ⟨h1.trans hI.1, h2.trans hI.2⟩

lemma compute_country_data_row (gs : Gamestate) (date : Int) (pid : Int) (ra sl : List Int)
    (cid : Int) (cd : CountryDict) (fl : DiploFlags) (row : CountryData)
    (h : compute_country_data gs date pid ra sl cid cd fl = .ok row) :
    row.date = date ∧ row.country = cid := by
  unfold compute_country_data at h
  split at h
  · exact Except.noConfusion h
  · split at h
    · exact Except.noConfusion h
    · rw [← Except.ok.inj h]
      exact ⟨rfl, rfl⟩

lemma expectedEntryCD_facts (gs : Gamestate) (date : Int) (pid : Int) (ra sl : List Int)
    (entry : Int × Option CountryDict) (c : CountryData)
    (h : expectedEntryCD gs date pid ra sl entry = some c) :
    c.date = date ∧ c.country = entry.1 := by
  obtain ⟨cid, ocd⟩ := entry
  cases ocd with
  | none => exact Option.noConfusion h
  | some cd =>
    have h' : (if countryTypeSupported cd.ctype then
        match compute_country_data gs date pid ra sl cid cd (diploFlagsOf pid cd) with
        | .ok row => some (extract_country_economy row cd)
        | .error _ => none
      else none) = some c := h
    by_cases hsup : countryTypeSupported cd.ctype = true
    · rw [if_pos hsup] at h'
      cases hcc : compute_country_data gs date pid ra sl cid cd (diploFlagsOf pid cd) with
      | ok row =>
        rw [hcc] at h'
        have h'' : some (extract_country_economy row cd) = some c := h'
        obtain ⟨hd, hc⟩ := compute_country_data_row gs date pid ra sl cid cd _ row hcc
        obtain ⟨he1, he2⟩ := extract_country_economy_keeps row cd
        rw [← Option.some.inj h'']
        exact ⟨he1.trans hd, he2.trans hc⟩
      | error e =>
        rw [hcc] at h'
        have h'' : (none : Option CountryData) = some c := h'
        exact Option.noConfusion h''
    · rw [if_neg hsup] at h'
      exact Option.noConfusion h'

lemma expected_filter_self (gs : Gamestate) (date : Int) (pid : Int) (ra sl : List Int) :
    (expectedCDList gs date pid ra sl).filter (fun c => c.date == date) =
      expectedCDList gs date pid ra sl := by
  apply List.filter_eq_self.mpr
  intro c hc
  obtain ⟨e, hemem, hesome⟩ := List.mem_filterMap.mp hc
  have hd := (expectedEntryCD_facts gs date pid ra sl e c hesome).1
  simp [hd]

lemma nodup_expected_countries (gs : Gamestate) (date : Int) (pid : Int) (ra sl : List Int) :
    ∀ (l : List (Int × Option CountryDict)), (l.map Prod.fst).Nodup →
      ((l.filterMap (expectedEntryCD gs date pid ra sl)).map (fun c => c.country)).Nodup := by
  intro l
  induction l with
  | nil => intro _; simp
  | cons e es ih =>
    intro hnd
    rw [List.map_cons, List.nodup_cons] at hnd
    rw [List.filterMap_cons]
    cases hfe : expectedEntryCD gs date pid ra sl e with
    | none => exact ih hnd.2
    | some c =>
      rw [List.map_cons, List.nodup_cons]
      refine ⟨?_, ih hnd.2⟩
      intro hmem
      obtain ⟨c', hc'mem, hc'eq⟩ := List.mem_map.mp hmem
      obtain ⟨e', he'mem, he'some⟩ := List.mem_filterMap.mp hc'mem
      have h1 : c.country = e.1 := (expectedEntryCD_facts gs date pid ra sl e c hfe).2
      have h2 : c'.country = e'.1 := (expectedEntryCD_facts gs date pid ra sl e' c' he'some).2
      apply hnd.1
      have he : e'.1 = e.1 := by rw [← h2, hc'eq, h1]
      rw [← he]
      exact List.mem_map.mpr ⟨e', he'mem, rfl⟩

/-- The profile of one successful transactional pass: exactly one GameState row
for the snapshot's day, and the day's CountryData rows are exactly the expected
pure per-country rows, in country order. -/
lemma bodyE_profile (o : Bool) (pid : Int) (gs : Gamestate) (store st' : Store)
    (ag : List Int × List Int)
    (hag : extract_player_trade_agreements gs pid = .ok ag)
    (hclean : store.gameStates.any (fun g => g.date == gs.date) = false →
      store.countryData.filter (fun c => c.date == gs.date) = [])
    (h : bodyE o pid gs store = .ok st') :
    st'.gameStates.filter (fun g => g.date == gs.date) = [{ date := gs.date }]
    ∧ st'.countryData.filter (fun c => c.date == gs.date) =
        expectedCDList gs gs.date pid ag.1 ag.2 := by
  unfold bodyE at h
  obtain ⟨st1, h1, h⟩ := exceptBind_shape _ _ _ h
  obtain ⟨ag', hag', h⟩ := exceptBind_shape _ _ _ h
  have hagag : ag' = ag := by
    rw [hag] at hag'
    exact (Except.ok.inj hag').symm
  rw [hagag] at h
  obtain ⟨st3, h3, h⟩ := exceptBind_shape _ _ _ h
  obtain ⟨st4, h4, h⟩ := exceptBind_shape _ _ _ h
  have hfin : st' = settle_finished_wars gs gs.date st4 := (Except.ok.inj h).symm
  obtain ⟨ex1, sys1, hls1, evs1, hsh1⟩ := ensureGameCreated_shape gs pid store st1 h1
  obtain ⟨hcd3, hgs3, hhl3, hsys3, hw3, hwp3, hge3⟩ :=
    countryFold_fields o gs gs.date pid ag.1 ag.2 gs.country (withNewSnapshot st1 gs.date) st3 h3
  obtain ⟨ws4, wps4, evs4, hsh4⟩ := extract_wars_shape gs gs.date st3 st4 h4
  obtain ⟨ws5, evs5, hsh5⟩ := settle_finished_wars_shape gs gs.date st4
  have hgsfin : st'.gameStates = (withNewSnapshot st1 gs.date).gameStates := by
    rw [hfin, hsh5]
    show st4.gameStates = _
    rw [hsh4]
    show st3.gameStates = _
    exact hgs3
  have hcdfin : st'.countryData = (withNewSnapshot st1 gs.date).countryData
      ++ expectedCDList gs gs.date pid ag.1 ag.2 := by
    rw [hfin, hsh5]
    show st4.countryData = _
    rw [hsh4]
    show st3.countryData = _
    exact hcd3
  constructor
  · rw [hgsfin]
    exact withNewSnapshot_gameStates st1 gs.date
  · rw [hcdfin, List.filter_append]
    have hclean1 : st1.gameStates.any (fun g => g.date == gs.date) = false →
        st1.countryData.filter (fun c => c.date == gs.date) = [] := by
      intro hf
      have hst1gs : st1.gameStates = store.gameStates := by rw [hsh1]
      have hst1cd : st1.countryData = store.countryData := by rw [hsh1]
      rw [hst1cd]
      apply hclean
      rw [← hst1gs]
      exact hf
    rw [withNewSnapshot_countryData st1 gs.date hclean1, List.nil_append]
    exact expected_filter_self gs gs.date pid ag.1 ag.2

/-! ### The hyperlane self-loop invariant (C10) -/

/-- No HyperLane row has equal endpoints. -/
def hyperlanesSelfLoopFree (store : Store) : Bool :=
  store.hyperlanes.all (fun l => l.system_one != l.system_two)

lemma addHyperlane_selfloop (sid : Int) (st : Store) (hl : HyperlaneDict)
    (hinv : hyperlanesSelfLoopFree st = true) :
    hyperlanesSelfLoopFree (addHyperlane sid st hl) = true := by
  cases hto : hl.hlto with
  | none =>
    have heq : addHyperlane sid st hl = st := by
      unfold addHyperlane
      rw [hto]
    rw [heq]
    exact hinv
  | some t =>
    by_cases hts : (t == sid) = true
    · have heq : addHyperlane sid st hl = st := by
        simp [addHyperlane, hto, hts]
      rw [heq]
      exact hinv
    · cases hfind : st.systems.find? (fun sy => sy.system_id_in_game == t) with
      | none =>
        have heq : addHyperlane sid st hl = st := by
          simp [addHyperlane, hto, hts, hfind]
        rw [heq]
        exact hinv
      | some nb =>
        have heq : addHyperlane sid st hl = { st with hyperlanes := st.hyperlanes ++
            [{ system_one := sid, system_two := nb.system_id_in_game }] } := by
          simp [addHyperlane, hto, hts, hfind]
        rw [heq]
        have hst : st.hyperlanes.all (fun l => l.system_one != l.system_two) = true := hinv
        have hnb : nb.system_id_in_game = t := by
          have hfound := List.find?_some hfind
          simpa using hfound
        show (st.hyperlanes ++
          [({ system_one := sid, system_two := nb.system_id_in_game } : HyperLane)]).all
            (fun l => l.system_one != l.system_two) = true
        rw [List.all_append, hst, Bool.true_and, List.all_cons, List.all_nil, Bool.and_true]
        show (sid != nb.system_id_in_game) = true
        rw [hnb, bne_iff_ne]
        intro heq2
        exact hts (by rw [heq2]; exact beq_self_eq_true t)

lemma add_single_system_selfloop (gs : Gamestate) (date : Int) (store : Store) (sid : Int)
    (cm : Option Country) (st' : Store)
    (h : add_single_system gs date store sid cm = .ok st')
    (hinv : hyperlanesSelfLoopFree store = true) :
    hyperlanesSelfLoopFree st' = true := by
  unfold add_single_system at h
  split at h
  · rw [← Except.ok.inj h]
    exact hinv
  · exact Except.noConfusion h
  · have h' : st' = _ := (Except.ok.inj h).symm
    subst h'
    refine foldl_inv' (addHyperlane sid) (fun s => hyperlanesSelfLoopFree s = true)
      (fun s b hI => addHyperlane_selfloop sid s b hI) _ _ ?_
    cases cm with
    | none => exact hinv
    | some c => exact hinv

lemma extract_galaxy_data_selfloop (gs : Gamestate) (date : Int) (store st' : Store)
    (h : extract_galaxy_data gs date store = .ok st')
    (hinv : hyperlanesSelfLoopFree store = true) :
    hyperlanesSelfLoopFree st' = true := by
  refine foldlM_inv _ (fun s => hyperlanesSelfLoopFree s = true) ?_
    gs.galactic_object store st' h hinv
  intro a b a' hI hstep
  exact add_single_system_selfloop gs date a b.1 none a' hstep hI

lemma ensureGameCreated_selfloop (gs : Gamestate) (pid : Int) (store st' : Store)
    (h : ensureGameCreated gs pid store = .ok st')
    (hinv : hyperlanesSelfLoopFree store = true) :
    hyperlanesSelfLoopFree st' = true := by
  unfold ensureGameCreated at h
  split at h
  · rw [← Except.ok.inj h]
    exact hinv
  · split at h
    · split at h
      · exact extract_galaxy_data_selfloop gs gs.date _ st' h hinv
      · exact Except.noConfusion h
    · exact Except.noConfusion h
    · exact Except.noConfusion h

lemma bodyE_selfloop (o : Bool) (pid : Int) (gs : Gamestate) (store st' : Store)
    (h : bodyE o pid gs store = .ok st')
    (hinv : hyperlanesSelfLoopFree store = true) :
    hyperlanesSelfLoopFree st' = true := by
  unfold bodyE at h
  obtain ⟨st1, h1, h⟩ := exceptBind_shape _ _ _ h
  obtain ⟨ag, hag, h⟩ := exceptBind_shape _ _ _ h
  obtain ⟨st3, h3, h⟩ := exceptBind_shape _ _ _ h
  obtain ⟨st4, h4, h⟩ := exceptBind_shape _ _ _ h
  have hfin : st' = settle_finished_wars gs gs.date st4 := (Except.ok.inj h).symm
  have hi1 := ensureGameCreated_selfloop gs pid store st1 h1 hinv
  have hi2 : hyperlanesSelfLoopFree (withNewSnapshot st1 gs.date) = true := by
    have hw : (withNewSnapshot st1 gs.date).hyperlanes = (snapshotReplaced st1 gs.date).hyperlanes :=
      rfl
    have hr : (snapshotReplaced st1 gs.date).hyperlanes = st1.hyperlanes := by
      unfold snapshotReplaced
      split
      · rfl
      · rfl
    unfold hyperlanesSelfLoopFree
    rw [hw, hr]
    exact hi1
  obtain ⟨hcd3, hgs3, hhl3, hsys3, hw3, hwp3, hge3⟩ :=
    countryFold_fields o gs gs.date pid ag.1 ag.2 gs.country (withNewSnapshot st1 gs.date) st3 h3
  obtain ⟨ws4, wps4, evs4, hsh4⟩ := extract_wars_shape gs gs.date st3 st4 h4
  obtain ⟨ws5, evs5, hsh5⟩ := settle_finished_wars_shape gs gs.date st4
  rw [hfin]
  unfold hyperlanesSelfLoopFree
  rw [hsh5]
  show st4.hyperlanes.all _ = true
  rw [hsh4]
  show st3.hyperlanes.all _ = true
  rw [hhl3]
  exact hi2

/-- C10: no HyperLane row is ever created with equal endpoints.  When a system
is added, a hyperlane entry whose target equals the system's own id is skipped
(timeline.py:148-149), so every store whose hyperlanes are self-loop-free stays
self-loop-free through `process_gamestate`. -/
theorem hyperlane_no_self_loops (o : Bool) (gs : Gamestate) (store : Store)
    (h : hyperlanesSelfLoopFree store = true) :
    hyperlanesSelfLoopFree (process_gamestate o gs store) = true := by
  unfold process_gamestate
  by_cases hc : (dedupInts (gs.player.map (fun p => p.country))).length ≠ 1
  · rw [if_pos hc]
    exact h
  · rw [if_neg hc]
    cases hp : gs.player with
    | nil => exact h
    | cons p rest =>
      show hyperlanesSelfLoopFree (applyBody o p gs store) = true
      unfold applyBody
      cases hb : bodyE o p.country gs store with
      | ok st' => exact bodyE_selfloop o p.country gs store st' hb h
      | error e => exact h

def c10Cd : CountryDict := { name := some "P", ctype := some "default", surveyed := some [] }

/-- A galaxy with a self-loop hyperlane entry on system 1 (skipped) and a real
lane between systems 1 and 2 (created once system 2 is added). -/
def c10Gs : Gamestate :=
  { date := 50, player := [⟨0⟩],
    country := [(0, some c10Cd)],
    galactic_object :=
      [(1, some { hyperlane := [{ hlto := some 1 }, { hlto := some 2 }] }),
       (2, some { hyperlane := [{ hlto := some 1 }] })] }

/-- Witness for C10: a full snapshot with a self-loop hyperlane entry in the
save leaves the store self-loop-free. -/
theorem hyperlane_no_self_loops_witness :
    hyperlanesSelfLoopFree ({} : Store) = true
    ∧ hyperlanesSelfLoopFree (process_gamestate false c10Gs ({} : Store)) = true :=
  ⟨by decide, hyperlane_no_self_loops false c10Gs ({} : Store) (by decide)⟩

/-! ### C6 and C7: the ambiguous-player gate and the transaction -/

/-- C6: a snapshot whose player list names more than one distinct player country
id is skipped: `process_gamestate` returns the persisted store unchanged (no
record created or modified), without raising — later snapshots remain
processable. -/
theorem process_gamestate_skips_ambiguous_player (o : Bool) (gs : Gamestate) (store : Store)
    (h : 1 < (dedupInts (gs.player.map (fun p => p.country))).length) :
    process_gamestate o gs store = store := by
  unfold process_gamestate
  rw [if_pos (by omega)]

def c6Gs : Gamestate := { date := 0, player := [⟨0⟩, ⟨1⟩] }

/-- Witness for C6 at a snapshot naming two distinct player countries. -/
theorem process_gamestate_skips_ambiguous_player_witness :
    1 < (dedupInts (c6Gs.player.map (fun p => p.country))).length
    ∧ process_gamestate false c6Gs ({} : Store) = ({} : Store) :=
  ⟨by decide, process_gamestate_skips_ambiguous_player false c6Gs ({} : Store) (by decide)⟩

/-- C7: each `process_gamestate` invocation is atomic over the persisted store:
either the transactional body succeeds and its entire result is installed, or
(ambiguous player, or any error inside the body, which the code answers with
`session.rollback()`) the store is left exactly as if the snapshot had never
been observed. -/
theorem process_gamestate_atomic (o : Bool) (gs : Gamestate) (store : Store) :
    (∃ p st', gs.player.head? = some p ∧ bodyE o p.country gs store = .ok st'
      ∧ process_gamestate o gs store = st')
    ∨ process_gamestate o gs store = store := by
  unfold process_gamestate
  by_cases hc : (dedupInts (gs.player.map (fun p => p.country))).length ≠ 1
  · right
    rw [if_pos hc]
  · rw [if_neg hc]
    cases hp : gs.player with
    | nil => right; rfl
    | cons p rest =>
      cases hb : bodyE o p.country gs store with
      | ok st' =>
        left
        refine ⟨p, st', rfl, hb, ?_⟩
        show applyBody o p gs store = st'
        unfold applyBody
        rw [hb]
      | error e =>
        right
        show applyBody o p gs store = store
        unfold applyBody
        rw [hb]

/-! ### C5: idempotent same-day reprocessing -/

/-- C5: with a well-formed snapshot (unambiguous player, duplicate-free country
keys) and a store whose day-`d` CountryData rows only exist alongside a day-`d`
GameState row, two successful passes over the same tree leave exactly one
GameState row for the day and exactly one CountryData row per country for the
day, with values both times equal to the pure per-country expectation. -/
theorem process_gamestate_idempotent (o : Bool) (gs : Gamestate) (store s1 s2 : Store)
    (p : PlayerEntry) (ag : List Int × List Int)
    (hcheck : (dedupInts (gs.player.map (fun q => q.country))).length = 1)
    (hhead : gs.player.head? = some p)
    (hag : extract_player_trade_agreements gs p.country = .ok ag)
    (hkeys : (gs.country.map Prod.fst).Nodup)
    (hclean : store.gameStates.any (fun g => g.date == gs.date) = false →
      store.countryData.filter (fun c => c.date == gs.date) = [])
    (h1 : bodyE o p.country gs store = .ok s1)
    (h2 : bodyE o p.country gs s1 = .ok s2) :
    process_gamestate o gs store = s1
    ∧ process_gamestate o gs s1 = s2
    ∧ s1.gameStates.filter (fun g => g.date == gs.date) = [{ date := gs.date }]
    ∧ s2.gameStates.filter (fun g => g.date == gs.date) = [{ date := gs.date }]
    ∧ s1.countryData.filter (fun c => c.date == gs.date) =
        expectedCDList gs gs.date p.country ag.1 ag.2
    ∧ s2.countryData.filter (fun c => c.date == gs.date) =
        expectedCDList gs gs.date p.country ag.1 ag.2
    ∧ ((s2.countryData.filter (fun c => c.date == gs.date)).map (fun c => c.country)).Nodup := by
  have hprof1 := bodyE_profile o p.country gs store s1 ag hag hclean h1
  have hclean2 : s1.gameStates.any (fun g => g.date == gs.date) = false →
      s1.countryData.filter (fun c => c.date == gs.date) = [] := by
    intro hfalse
    exfalso
    have hmem : ({ date := gs.date } : GameState) ∈
        s1.gameStates.filter (fun g => g.date == gs.date) := by
      rw [hprof1.1]
      exact List.mem_singleton.mpr rfl
    have hmem' := List.mem_filter.mp hmem
    have hany : s1.gameStates.any (fun g => g.date == gs.date) = true :=
      List.any_eq_true.mpr ⟨_, hmem'.1, hmem'.2⟩
    rw [hfalse] at hany
    exact Bool.noConfusion hany
  have hprof2 := bodyE_profile o p.country gs s1 s2 ag hag hclean2 h2
  have hrun1 : process_gamestate o gs store = s1 := by
    unfold process_gamestate
    rw [if_neg (by omega)]
    cases hp : gs.player with
    | nil =>
      rw [hp] at hhead
      exact Option.noConfusion hhead
    | cons q rest =>
      rw [hp] at hhead
      have hq : q = p := Option.some.inj hhead
      show applyBody o q gs store = s1
      unfold applyBody
      rw [hq, h1]
  have hrun2 : process_gamestate o gs s1 = s2 := by
    unfold process_gamestate
    rw [if_neg (by omega)]
    cases hp : gs.player with
    | nil =>
      rw [hp] at hhead
      exact Option.noConfusion hhead
    | cons q rest =>
      rw [hp] at hhead
      have hq : q = p := Option.some.inj hhead
      show applyBody o q gs s1 = s2
      unfold applyBody
      rw [hq, h2]
  refine ⟨hrun1, hrun2, hprof1.1, hprof2.1, hprof1.2, hprof2.2, ?_⟩
  rw [hprof2.2]
  exact nodup_expected_countries gs gs.date p.country ag.1 ag.2 gs.country hkeys

def c5Cd : CountryDict := { name := some "P", ctype := some "default", surveyed := some [] }

def c5CdB : CountryDict := { name := some "B", ctype := some "default", surveyed := some [] }

def c5Gs : Gamestate :=
  { date := 10, player := [⟨0⟩], country := [(0, some c5Cd), (1, some c5CdB)] }

def c5S1 : Store :=
  match bodyE false 0 c5Gs ({} : Store) with
  | .ok s => s
  | .error _ => ({} : Store)

def c5S2 : Store :=
  match bodyE false 0 c5Gs c5S1 with
  | .ok s => s
  | .error _ => ({} : Store)

/-- Witness for C5: processing the same two-country snapshot twice from the
empty store leaves one GameState row and one CountryData row per country for
the day, with the expected values both times. -/
theorem process_gamestate_idempotent_witness :
    process_gamestate false c5Gs ({} : Store) = c5S1
    ∧ process_gamestate false c5Gs c5S1 = c5S2
    ∧ c5S1.gameStates.filter (fun g => g.date == c5Gs.date) = [{ date := c5Gs.date }]
    ∧ c5S2.gameStates.filter (fun g => g.date == c5Gs.date) = [{ date := c5Gs.date }]
    ∧ c5S1.countryData.filter (fun c => c.date == c5Gs.date) =
        expectedCDList c5Gs c5Gs.date 0 [] []
    ∧ c5S2.countryData.filter (fun c => c.date == c5Gs.date) =
        expectedCDList c5Gs c5Gs.date 0 [] []
    ∧ ((c5S2.countryData.filter (fun c => c.date == c5Gs.date)).map (fun c => c.country)).Nodup :=
  process_gamestate_idempotent false c5Gs ({} : Store) c5S1 c5S2 ⟨0⟩ ([], [])
    (by decide) rfl rfl (by decide) (fun hf => rfl) rfl rfl

/-! ### C4: war outcomes after leaving `in_progress`

The force-peace branches of `_extract_wars` (timeline.py:926-931) run before the
settled-record check (line 932), so a war record that is settled but not stale
is overwritten to `status_quo` when a save still carries a force-peace flag for
a war of the same name. -/

def c4Cd : CountryDict := { name := some "P", ctype := some "default", surveyed := some [] }

def c4Wd1 : WarDict := { name := some "W", start_date := 60, attackers := [⟨0⟩] }

/-- Day 100: the war "W" is created, in progress. -/
def c4Snap1 : Gamestate :=
  { date := 100, player := [⟨0⟩], country := [(0, some c4Cd)], war := [(1, some c4Wd1)] }

/-- Day 2000: "W" is gone from the save; being stale (end day 100 < 2000 - 1800)
it is settled with the terminal outcome `unknown`. -/
def c4Snap2 : Gamestate := { date := 2000, player := [⟨0⟩], country := [(0, some c4Cd)] }

/-- Day 2010: a war-type truce for "W" advances the settled record's end day to
2005 (timeline.py:1420-1422 update it regardless of the outcome). -/
def c4Snap3 : Gamestate :=
  { date := 2010, player := [⟨0⟩], country := [(0, some c4Cd)],
    truce := [(0, some { name := some "W", truce_type := some "war", start_date := some 2005 })] }

def c4Wd4 : WarDict :=
  { name := some "W", start_date := 60, defender_force_peace := some "yes",
    defender_force_peace_date := some 2090, attackers := [⟨0⟩] }

/-- Day 2100: the save carries "W" again with a defender force-peace flag; the
record is settled (`unknown`) but not stale (end day 2005 ≥ 2100 - 1800), so the
force-peace branch overwrites the terminal outcome with `status_quo`. -/
def c4Snap4 : Gamestate :=
  { date := 2100, player := [⟨0⟩], country := [(0, some c4Cd)], war := [(1, some c4Wd4)] }

def c4S3 : Store :=
  process_gamestate false c4Snap3 (process_gamestate false c4Snap2
    (process_gamestate false c4Snap1 ({} : Store)))

/-- C4: the claim says a War's outcome, once it has left `in_progress` for a
terminal value, is never changed by later snapshots.  Running the four
snapshots above from the empty store, the sole war's outcome is the terminal
`unknown` after day 2010, and processing the day-2100 snapshot changes it to
`status_quo`: the defender-force-peace branch of `_extract_wars` fires before
the settled-record check. -/
theorem war_outcome_rewritten_by_force_peace :
    c4S3.wars.map (fun w => w.outcome) = [.unknown]
    ∧ (process_gamestate false c4Snap4 c4S3).wars.map (fun w => w.outcome) = [.status_quo] := by
  decide

end SD
